import Mathlib

/-!
Verification development for the EdgeMCP control-plane firmware.

The C sources under src/main are shallowly embedded here:
* cJSON value trees become the inductive `Json`; the external cJSON text
  codec (cJSON_Parse / cJSON_PrintUnformatted) is treated as an external
  collaborator, so the repository's own message handling is modelled at
  the level of parsed value trees.
* `esp_err_t` becomes the enumeration `EspErr`.
* Bounded `snprintf`-style writes into fixed buffers are modelled by
  truncating string operations (`ctake`).
-/

/-- ESP-IDF error codes used by the embedded sources. -/
inductive EspErr where
  | ok
  | fail
  | noMem
  | invalidArg
  | invalidState
  | invalidSize
  | notFound
deriving DecidableEq, Repr

/-- `esp_err_to_name` for the codes above (external ESP-IDF helper,
modelled by its documented name table). -/
def espErrName : EspErr → String
  | .ok => "ESP_OK"
  | .fail => "ESP_FAIL"
  | .noMem => "ESP_ERR_NO_MEM"
  | .invalidArg => "ESP_ERR_INVALID_ARG"
  | .invalidState => "ESP_ERR_INVALID_STATE"
  | .invalidSize => "ESP_ERR_INVALID_SIZE"
  | .notFound => "ESP_ERR_NOT_FOUND"

/-- A cJSON value tree.  A number node carries both cJSON fields
`valueint` and `valuedouble` (the double is modelled as a rational).
`raw` models the cJSON_Raw / unsupported node kinds. -/
inductive Json where
  | null
  | boolean (b : Bool)
  | number (valueint : Int) (valuedouble : Rat)
  | str (s : String)
  | arr (items : List Json)
  | obj (members : List (String × Json))
  | raw (text : String)
deriving Repr

/-- First-match association lookup, as cJSON_GetObjectItem walks the
child list. -/
def jlookup (k : String) : List (String × Json) → Option Json
  | [] => none
  | (k2, v) :: rest => if k2 = k then some v else jlookup k rest

/-- `cJSON_GetObjectItem`: `NULL` on a non-object, first matching member
otherwise. -/
def getItem (j : Json) (k : String) : Option Json :=
  match j with
  | .obj members => jlookup k members
  | _ => none

/-- Bounded copy: the result of writing `s` through an `n`-capacity
`snprintf`/`strncpy`-style bound (`n` is the number of payload bytes
kept, i.e. buffer size minus the terminator). -/
def ctake (n : Nat) (s : String) : String :=
  String.mk (s.data.take n)

/-- C `isspace` over the default locale, as consulted by `atoi`. -/
def isCSpace (c : Char) : Bool :=
  c = ' ' || c = '\t' || c = '\n' || c = Char.ofNat 11 || c = Char.ofNat 12 || c = '\r'

/-- Digit-accumulation loop of `atoi`. -/
def atoiLoop : List Char → Nat → Nat
  | [], acc => acc
  | c :: rest, acc =>
      if c.isDigit then atoiLoop rest (acc * 10 + (c.toNat - 48)) else acc

/-- C `atoi`: skip leading whitespace, optional sign, then a best-effort
digit run; a string with no digit run yields 0. -/
def atoi (s : String) : Int :=
  match s.data.dropWhile isCSpace with
  | [] => 0
  | c :: rest =>
      if c = '-' then -(atoiLoop rest 0 : Int)
      else if c = '+' then (atoiLoop rest 0 : Int)
      else (atoiLoop (c :: rest) 0 : Int)

/-- JSON-RPC message kinds (src/main/jsonrpc.h). -/
inductive MsgType where
  | request
  | notification
  | response
  | error
deriving DecidableEq, Repr

/-- Parsed JSON-RPC message (`jsonrpc_message_t`). -/
structure JsonrpcMessage where
  type : MsgType
  id : Int
  has_id : Bool
  method : String
  params : Option Json
  result : Option Json
  error_code : Int
  error_message : String
deriving Repr

/-- Identifier coercion of `jsonrpc_parse_message` (src/main/jsonrpc.c,
lines 37-52): numeric ids pass through `valueint`, string ids go through
`atoi`, anything else present coerces to 0. -/
def coerceId (idItem : Option Json) : Bool × Int :=
  match idItem with
  | none => (false, 0)
  | some (.number n _) => (true, n)
  | some (.str s) => (true, atoi s)
  | some _ => (true, 0)

/-- `jsonrpc_parse_message` after `cJSON_Parse` has produced the value
tree `root` (src/main/jsonrpc.c, lines 29-94): version check, identifier
coercion, then classification by method / result / error presence.
`none` models the `ESP_ERR_INVALID_ARG` returns. -/
def jsonrpc_parse_tree (root : Json) : Option JsonrpcMessage :=
  match getItem root "jsonrpc" with
  | some (.str v) =>
    if v = "2.0" then
      let hi := coerceId (getItem root "id")
      match getItem root "method" with
      | some (.str m) =>
          some { type := if hi.1 then .request else .notification
                 id := hi.2, has_id := hi.1, method := ctake 63 m
                 params := getItem root "params", result := none
                 error_code := 0, error_message := "" }
      | _ =>
        match getItem root "result" with
        | some r =>
            some { type := .response, id := hi.2, has_id := hi.1
                   method := "", params := none, result := some r
                   error_code := 0, error_message := "" }
        | none =>
          match getItem root "error" with
          | some e =>
              some { type := .error, id := hi.2, has_id := hi.1
                     method := "", params := none, result := none
                     error_code := (match getItem e "code" with
                                    | some (.number c _) => c
                                    | _ => 0)
                     error_message := (match getItem e "message" with
                                       | some (.str s) => ctake 127 s
                                       | _ => "") }
          | none => none
    else none
  | _ => none

/-- Full `jsonrpc_parse_message` over the raw text, with the external
`cJSON_Parse` supplied as `parseText`. -/
def jsonrpc_parse_message (parseText : String → Option Json) (s : String) :
    Option JsonrpcMessage :=
  (parseText s).bind jsonrpc_parse_tree

/-- `jsonrpc_create_response` (src/main/jsonrpc.c, lines 97-117), modelled
up to the external `cJSON_PrintUnformatted` step: the response value tree
that gets serialized. -/
def jsonrpc_create_response (id : Int) (result : Json) : Json :=
  .obj [("jsonrpc", .str "2.0"), ("id", .number id id), ("result", result)]

/-- `jsonrpc_create_error` (src/main/jsonrpc.c, lines 119-143), modelled
up to the external print step.  A zero id (the unknown-identifier
sentinel) is emitted as JSON null; a NULL message pointer (modelled by
`none`) falls back to "Unknown error". -/
def jsonrpc_create_error (id : Int) (code : Int) (message : Option String) : Json :=
  .obj ([("jsonrpc", .str "2.0")]
        ++ [("id", if id ≠ 0 then .number id id else .null)]
        ++ [("error", .obj [("code", .number code code),
                            ("message", .str (message.getD "Unknown error"))])])

/-!
## Tool registry and MCP protocol layer (src/main/mcp_tools.c, mcp_protocol.c)

Tool handler bodies touch hardware, the VM, flash and the log store; at
this layer their observable behaviour (result text and status code) is
supplied by the environment `Env.runTool`, while the registry itself, the
lookup, the not-found path and the envelope construction are embedded
concretely.  `Env.parseText` is the external `cJSON_Parse`.
-/

/-- One row of `tool_registry` (`mcp_tool_t`): the handler reference is
resolved through `Env.runTool` by name. -/
structure McpTool where
  name : String
  description : String
  input_schema_json : String

/-- External behaviour supplied to the embedded dispatcher. -/
structure Env where
  parseText : String → Option Json
  runTool : String → Json → EspErr × String

/-- The static `tool_registry` table (src/main/mcp_tools.c, lines 41-166),
names and descriptions as registered; schema documents kept as their raw
JSON text (they are parsed by the external cJSON when listed). -/
def tool_registry : List McpTool :=
  [ ⟨"control_led", "Control the onboard LED", "schema:control_led"⟩
  , ⟨"get_status", "Get system status information including memory, WiFi, and uptime", "schema:get_status"⟩
  , ⟨"get_system_prompt", "Get the overall project prompt for AI agents (what this project does and recommended tool workflow)", "schema:get_system_prompt"⟩
  , ⟨"sys_get_logs", "Retrieve recent runtime logs from the device", "schema:sys_get_logs"⟩
  , ⟨"sys_ota_push", "Start OTA firmware update from HTTP URL", "schema:sys_ota_push"⟩
  , ⟨"sys_ota_status", "Get current OTA update state and progress", "schema:sys_ota_status"⟩
  , ⟨"sys_ota_rollback", "Rollback to previous firmware version and reboot", "schema:sys_ota_rollback"⟩
  , ⟨"sys_reboot", "Reboot the device", "schema:sys_reboot"⟩
  , ⟨"lua_push_script", "Write or update a Lua script on the device. Use append=true for large scripts sent in chunks.", "schema:lua_push_script"⟩
  , ⟨"lua_get_script", "Read a Lua script source code from the device", "schema:lua_get_script"⟩
  , ⟨"lua_list_scripts", "List all Lua scripts stored on the device", "schema:lua_list_scripts"⟩
  , ⟨"lua_exec", "Execute a Lua code snippet directly in the VM and return the result", "schema:lua_exec"⟩
  , ⟨"lua_bind_dependency", "Bind a DI interface to a provider by updating bindings.lua and optionally restart Lua VM", "schema:lua_bind_dependency"⟩
  , ⟨"lua_restart", "Restart the Lua VM, re-executing main.lua with any recent script changes", "schema:lua_restart"⟩ ]

/-- `mcp_tools_find` (src/main/mcp_tools.c, lines 203-216): linear scan of
the static table. -/
def mcp_tools_find (name : String) : Option McpTool :=
  tool_registry.find? (fun t => t.name = name)

/-- `mcp_tools_get_list` (src/main/mcp_tools.c, lines 218-251): one object
per registered tool; a schema that fails to parse falls back to an empty
object. -/
def mcp_tools_get_list (env : Env) : Json :=
  .arr (tool_registry.map (fun t =>
    .obj [("name", .str t.name), ("description", .str t.description),
          ("inputSchema", (env.parseText t.input_schema_json).getD (.obj []))]))

/-- `mcp_tools_execute` (src/main/mcp_tools.c, lines 253-281): unknown
names write a bounded "Tool not found" message and flag the error; a
failing handler that left the buffer empty gets a synthesized generic
message.  Returns (status, result text, is_error). -/
def mcp_tools_execute (env : Env) (tool_name : String) (arguments : Json)
    (max_len : Nat) : EspErr × String × Bool :=
  match mcp_tools_find tool_name with
  | none => (.notFound, ctake (max_len - 1) ("Tool not found: " ++ tool_name), true)
  | some t =>
    let r := env.runTool t.name arguments
    if r.1 ≠ .ok then
      (r.1, if r.2 = "" then ctake (max_len - 1) ("Tool execution failed: " ++ espErrName r.1)
            else r.2, true)
    else (r.1, r.2, false)

/-- `mcp_handle_initialize` (src/main/mcp_protocol.c, lines 34-82): NULL
params are rejected; otherwise the fixed capability document is returned
(client identity is only logged). -/
def mcp_handle_initialize (params : Option Json) : EspErr × Option Json :=
  match params with
  | none => (.invalidArg, none)
  | some _ =>
    (.ok, some (.obj
      [ ("protocolVersion", .str "2024-11-05")
      , ("capabilities", .obj [("tools", .obj [])])
      , ("serverInfo", .obj [("name", .str "esp32-mcp-server"),
                             ("version", .str "1.0.0")]) ]))

/-- `mcp_handle_tools_list` (src/main/mcp_protocol.c, lines 84-112). -/
def mcp_handle_tools_list (env : Env) : EspErr × Option Json :=
  (.ok, some (.obj [("tools", mcp_tools_get_list env)]))

/-- `mcp_handle_tools_call` (src/main/mcp_protocol.c, lines 114-170):
requires params with a string `name`; a missing `arguments` member is
replaced by a fresh empty object; the tool result is wrapped into the
`content` array, with `isError` added only on failure; the handler status
itself never turns into a protocol error (the function returns ESP_OK). -/
def mcp_handle_tools_call (env : Env) (params : Option Json) : EspErr × Option Json :=
  match params with
  | none => (.invalidArg, none)
  | some p =>
    match getItem p "name" with
    | some (.str tool_name) =>
      let arguments := (getItem p "arguments").getD (.obj [])
      let r := mcp_tools_execute env tool_name arguments 2048
      let content : Json := .arr [.obj [("type", .str "text"), ("text", .str r.2.1)]]
      let response : Json :=
        if r.2.2 || r.1 ≠ .ok then
          .obj [("content", content), ("isError", .boolean true)]
        else
          .obj [("content", content)]
      (.ok, some response)
    | _ => (.invalidArg, none)

/-- `mcp_handle_ping` (src/main/mcp_protocol.c, lines 172-189). -/
def mcp_handle_ping : EspErr × Option Json :=
  (.ok, some (.obj []))

/-- `mcp_dispatch_method` (src/main/mcp_server.c, lines 42-57): walk the
method table; unknown methods report ESP_ERR_NOT_FOUND. -/
def mcp_dispatch_method (env : Env) (method : String) (params : Option Json) :
    EspErr × Option Json :=
  if method = "initialize" then mcp_handle_initialize params
  else if method = "tools/list" then mcp_handle_tools_list env
  else if method = "tools/call" then mcp_handle_tools_call env params
  else if method = "ping" then mcp_handle_ping
  else (.notFound, none)

/-- `mcp_server_process_message` (src/main/mcp_server.c, lines 59-107):
parse failures and non-request messages get protocol error responses,
requests are dispatched and always answered, notifications are never
answered (`none`).  The response is the value tree handed to the external
serializer. -/
def mcp_server_process_message (env : Env) (json_str : String) : Option Json :=
  match jsonrpc_parse_message env.parseText json_str with
  | none => some (jsonrpc_create_error 0 (-32700) (some "Invalid JSON or JSON-RPC format"))
  | some msg =>
    match msg.type with
    | .request =>
      let dr := mcp_dispatch_method env msg.method msg.params
      match dr with
      | (.ok, some r) => some (jsonrpc_create_response msg.id r)
      | (.notFound, _) => some (jsonrpc_create_error msg.id (-32601) (some "Method not found"))
      | (.invalidArg, _) => some (jsonrpc_create_error msg.id (-32602) (some "Invalid parameters"))
      | (_, _) => some (jsonrpc_create_error msg.id (-32603) (some "Internal error"))
    | .notification => none
    | _ => some (jsonrpc_create_error 0 (-32600) (some "Invalid message type"))

/-!
## Script store (src/main/lua_runtime.c, lines 714-756)

SPIFFS is an external flat named-blob store; the embedded functions
compute the path (with the 280-byte `snprintf` bound), then read, write
or append.  The store is modelled as an association list from path to
content, updated in place.
-/

/-- The `snprintf(path, 280, "/spiffs/%s", name)` path computation. -/
def sPath (name : String) : String :=
  ctake 279 ("/spiffs/" ++ name)

/-- The named-blob store: path to content bytes. -/
abbrev ScriptStore := List (String × String)

/-- Lookup of a stored blob by path (`fopen` for reading). -/
def storeGet (st : ScriptStore) (path : String) : Option String :=
  match st with
  | [] => none
  | (p, c) :: rest => if p = path then some c else storeGet rest path

/-- In-place update or creation of a blob. -/
def storePut (st : ScriptStore) (path content : String) : ScriptStore :=
  match st with
  | [] => [(path, content)]
  | (p, c) :: rest =>
      if p = path then (p, content) :: rest else (p, c) :: storePut rest path content

/-- `lua_runtime_push_script` (src/main/lua_runtime.c, lines 738-756):
`fopen` with "a" appends to the existing content (creating the file when
absent), "w" truncates and overwrites. -/
def lua_runtime_push_script (st : ScriptStore) (name content : String)
    (append : Bool) : ScriptStore :=
  let path := sPath name
  let newContent :=
    if append then ((storeGet st path).getD "") ++ content else content
  storePut st path newContent

/-- `lua_runtime_get_script` (src/main/lua_runtime.c, lines 714-736): a
missing blob writes a "Script not found" message into the caller's buffer
and reports ESP_ERR_NOT_FOUND; otherwise up to `max_len - 1` bytes of the
content are read back. -/
def lua_runtime_get_script (st : ScriptStore) (name : String) (max_len : Nat) :
    EspErr × String :=
  match storeGet st (sPath name) with
  | none => (.notFound, ctake (max_len - 1) ("Script not found: " ++ name))
  | some c => (.ok, ctake (max_len - 1) c)

/-!
## OTA session state machine (src/main/mcp_ota.c)
-/

/-- `ota_state_t` (src/main/mcp_ota.h). -/
inductive OtaState where
  | idle
  | downloading
  | writing
  | rebooting
  | error
deriving DecidableEq, Repr

/-- The numeric value of each state, as printed by the `%d` in the
rejection message. -/
def otaStateNum : OtaState → Nat
  | .idle => 0
  | .downloading => 1
  | .writing => 2
  | .rebooting => 3
  | .error => 4

/-- The process-wide OTA session singleton: `s_ota_state`,
`s_ota_progress_pct`, `s_ota_message`. -/
structure OtaSession where
  state : OtaState
  progress_pct : Int
  message : String
deriving Repr

/-- The first actions of `ota_task` (src/main/mcp_ota.c, lines 40-47):
the freshly spawned session transitions to Downloading with progress
reset to 0 and a connecting message (bounded by the 128-byte buffer). -/
def ota_task_begin (url : String) (s : OtaSession) : OtaSession :=
  { s with state := .downloading, progress_pct := 0
         , message := ctake 127 ("Connecting to " ++ url) }

/-- `tool_sys_ota_push` (src/main/mcp_ota.c, lines 197-227): rejected with
ESP_ERR_INVALID_STATE while Downloading or Writing; otherwise the url is
validated and an `ota_task` is spawned (`spawnOk` models `xTaskCreate`).
Returns (status, result text, session after the call itself, whether a
task was spawned).  The push itself mutates no session field; the spawned
task does that via `ota_task_begin`. -/
def tool_sys_ota_push (s : OtaSession) (args : Json) (spawnOk : Bool)
    (max_len : Nat) : EspErr × String × OtaSession × Bool :=
  if s.state = .downloading ∨ s.state = .writing then
    (.invalidState,
     ctake (max_len - 1) ("OTA already in progress (state: " ++ toString (otaStateNum s.state)
       ++ ", progress: " ++ toString s.progress_pct ++ "%)"),
     s, false)
  else
    match getItem args "url" with
    | some (.str url) =>
      if url.length = 0 then
        (.invalidArg, ctake (max_len - 1) "Missing or empty 'url' parameter", s, false)
      else if spawnOk then
        (.ok, ctake (max_len - 1) ("OTA update started from: " ++ url), s, true)
      else
        (.fail, ctake (max_len - 1) "Failed to create OTA task", s, false)
    | _ => (.invalidArg, ctake (max_len - 1) "Missing or empty 'url' parameter", s, false)

/-!
## Lua runtime lifecycle (src/main/lua_runtime.c, lines 635-712)

The Lua library itself is an external collaborator: the outcome of
`luaL_dostring` plus the result capture (`lua_gettop` / `luaL_tolstring`)
on a given snippet is supplied as a `LuaOutcome`.  The runtime globals
`L`, `lua_task_handle` and `lua_task_running` become the `LuaRt` record.
-/

/-- The runtime's global state: whether the VM exists (`L`), whether a
background task handle is live, and the `lua_task_running` flag. -/
structure LuaRt where
  vm : Bool
  taskHandle : Bool
  taskRunning : Bool
deriving DecidableEq, Repr

/-- Outcome of running a snippet in the external Lua engine:
a raised error (message may be NULL), a value left on top of the stack
(its `luaL_tolstring` rendering, possibly NULL), or an empty stack. -/
inductive LuaOutcome where
  | err (msg : Option String)
  | value (rendered : Option String)
  | noValue
deriving Repr

/-- `lua_runtime_start` (src/main/lua_runtime.c, lines 635-649): rejects a
second concurrent start; otherwise creates the background task
(`spawnOk` models `xTaskCreate`). -/
def lua_runtime_start (rt : LuaRt) (spawnOk : Bool) : EspErr × LuaRt :=
  if rt.taskHandle then (.invalidState, rt)
  else if spawnOk then (.ok, { rt with taskHandle := true, taskRunning := true })
  else (.fail, rt)

/-- `lua_runtime_exec` (src/main/lua_runtime.c, lines 677-712): tear down
the background task if live, run the snippet against the current VM,
capture the result ("error: <msg>" on a raised error, the rendered
top-of-stack value, or the "ok" sentinel), then relaunch the background
task exactly when it had been running.  Returns (status, result buffer
content — `none` when the buffer is never written, new runtime state). -/
def lua_runtime_exec (rt : LuaRt) (hasCode : Bool) (outcome : LuaOutcome)
    (spawnOk : Bool) (max_len : Nat) : EspErr × Option String × LuaRt :=
  if ¬rt.vm ∨ ¬hasCode then (.invalidArg, none, rt)
  else
    let wasRunning := rt.taskHandle
    let rt1 : LuaRt := { rt with taskHandle := false, taskRunning := false }
    match outcome with
    | .err m =>
        let res := ctake (max_len - 1) ("error: " ++ m.getD "unknown")
        let rt2 := if wasRunning then (lua_runtime_start rt1 spawnOk).2 else rt1
        (.fail, some res, rt2)
    | .value s =>
        let res := ctake (max_len - 1) (s.getD "nil")
        let rt2 := if wasRunning then (lua_runtime_start rt1 spawnOk).2 else rt1
        (.ok, some res, rt2)
    | .noValue =>
        let res := ctake (max_len - 1) "ok"
        let rt2 := if wasRunning then (lua_runtime_start rt1 spawnOk).2 else rt1
        (.ok, some res, rt2)

/-!
## Restart protocol as an interleaving transition system (C1)

`lua_runtime_restart` (src/main/lua_runtime.c, lines 651-675) runs on the
caller's context while the entry-point script runs on its own FreeRTOS
task.  The interaction is modelled as a labelled transition system:
`pc` tracks the restart caller through the source's phases (delete task /
delay, destroy+create VM, relaunch), `bg` counts live background script
contexts.  `vTaskDelete` removes the victim task from the scheduler, so
after the `stopTask` step the old context takes no further steps; the
background task may also terminate on its own at any point (`main.lua`
returning, src/main/lua_runtime.c lines 600-616).  `vmOk` and `spawnOk`
model the external `luaL_newstate` and `xTaskCreate` outcomes.
-/

/-- Program counter of the restart caller through
`lua_runtime_restart`. -/
inductive RPc where
  | start
  | stopped
  | vmReady
  | done
  | failedVm
  | failedSpawn
deriving DecidableEq, Repr

/-- A configuration of the interleaved system: restart phase plus the
number of live background script contexts. -/
structure RConfig where
  pc : RPc
  bg : Nat
deriving DecidableEq, Repr

/-- One atomic step of the interleaved system. -/
inductive RStep (vmOk spawnOk : Bool) : RConfig → RConfig → Prop where
  | stopTask (b : Nat) :
      RStep vmOk spawnOk ⟨.start, b⟩ ⟨.stopped, 0⟩
  | recreateVm (b : Nat) : vmOk = true →
      RStep vmOk spawnOk ⟨.stopped, b⟩ ⟨.vmReady, b⟩
  | recreateVmFail (b : Nat) : vmOk = false →
      RStep vmOk spawnOk ⟨.stopped, b⟩ ⟨.failedVm, b⟩
  | relaunch (b : Nat) : spawnOk = true →
      RStep vmOk spawnOk ⟨.vmReady, b⟩ ⟨.done, b + 1⟩
  | relaunchFail (b : Nat) : spawnOk = false →
      RStep vmOk spawnOk ⟨.vmReady, b⟩ ⟨.failedSpawn, b⟩
  | bgExit (pc : RPc) (b : Nat) :
      RStep vmOk spawnOk ⟨pc, b + 1⟩ ⟨pc, b⟩

/-- Reachability in the interleaved system. -/
def RReach (vmOk spawnOk : Bool) : RConfig → RConfig → Prop :=
  Relation.ReflTransGen (RStep vmOk spawnOk)

/-- The phases in which the restart caller itself touches VM state
(`destroy_vm` / `create_vm`, src/main/lua_runtime.c lines 664-671). -/
def restartTouchesVm (pc : RPc) : Prop :=
  pc = .stopped ∨ pc = .vmReady

/-!
## Lua literal serializer (src/main/mcp_tools.c, lines 387-521)
-/

/-- The bounded output cursor of the string-builder helpers: text written
so far plus the remaining capacity. -/
structure StrBuf where
  out : String
  remaining : Nat
deriving Repr

/-- `strbuf_append` / `strbuf_appendf` (src/main/mcp_tools.c, lines
387-412): `snprintf` writes the full text only when it is strictly
shorter than the remaining capacity; otherwise the helper reports
failure and the caller abandons the buffer. -/
def strbuf_append (sb : StrBuf) (s : String) : Option StrBuf :=
  if s.length < sb.remaining then some ⟨sb.out ++ s, sb.remaining - s.length⟩
  else none

/-- Upper-case hex digit. -/
def hexDigit (n : Nat) : Char :=
  "0123456789ABCDEF".data.getD n '0'

/-- `%02X` of a byte below 0x100. -/
def hex2 (n : Nat) : String :=
  String.mk [hexDigit (n / 16 % 16), hexDigit (n % 16)]

/-- The per-character escape of `strbuf_append_lua_string`
(src/main/mcp_tools.c, lines 414-448): backslash, quote, newline,
carriage return and tab get two-character escapes, other control bytes a
hex escape, everything else passes through. -/
def luaEsc (c : Char) : String :=
  if c = '\\' then "\\\\"
  else if c = '"' then "\\\""
  else if c = '\n' then "\\n"
  else if c = '\r' then "\\r"
  else if c = '\t' then "\\t"
  else if c.toNat < 0x20 then "\\x" ++ hex2 c.toNat
  else String.mk [c]

/-- The character loop of `strbuf_append_lua_string`. -/
def strbuf_append_chars : List Char → StrBuf → Option StrBuf
  | [], sb => some sb
  | c :: rest, sb => (strbuf_append sb (luaEsc c)).bind (strbuf_append_chars rest)

/-- `strbuf_append_lua_string` (src/main/mcp_tools.c, lines 414-448):
quoted, escaped rendering of a string value. -/
def strbuf_append_lua_string (sb : StrBuf) (value : String) : Option StrBuf :=
  (strbuf_append sb "\"").bind (fun sb1 =>
    (strbuf_append_chars value.data sb1).bind (fun sb2 =>
      strbuf_append sb2 "\""))

mutual

/-- `serialize_cjson_to_lua` (src/main/mcp_tools.c, lines 450-521):
null becomes nil, booleans pass through, a number whose double equals
its integer field is printed `%d`, other numbers are printed through the
external `%.17g` (supplied as `g17`), strings are quoted and escaped,
arrays become brace sequences, objects become brace mappings with
bracketed string keys, and any other node kind reports failure. -/
def serialize_cjson_to_lua (g17 : Rat → String) : Json → StrBuf → Option StrBuf
  | .null, sb => strbuf_append sb "nil"
  | .boolean b, sb => strbuf_append sb (if b then "true" else "false")
  | .number i d, sb =>
      if (i : Rat) = d then strbuf_append sb (toString i)
      else strbuf_append sb (g17 d)
  | .str s, sb => strbuf_append_lua_string sb s
  | .arr items, sb =>
      (strbuf_append sb "\x7b").bind (fun sb1 =>
        (serializeItems g17 items true sb1).bind (fun sb2 =>
          strbuf_append sb2 "\x7d"))
  | .obj members, sb =>
      (strbuf_append sb "\x7b").bind (fun sb1 =>
        (serializeMembers g17 members true sb1).bind (fun sb2 =>
          strbuf_append sb2 "\x7d"))
  | .raw _, _ => none

/-- The `cJSON_ArrayForEach` loop over array items, with its `", "`
separators. -/
def serializeItems (g17 : Rat → String) : List Json → Bool → StrBuf → Option StrBuf
  | [], _, sb => some sb
  | j :: rest, first, sb =>
      ((if first then some sb else strbuf_append sb ", ").bind (fun sb1 =>
        (serialize_cjson_to_lua g17 j sb1).bind (fun sb2 =>
          serializeItems g17 rest false sb2)))

/-- The `cJSON_ArrayForEach` loop over object members: bracketed string
key, `" = "`, then the value (a missing key string is treated as empty). -/
def serializeMembers (g17 : Rat → String) :
    List (String × Json) → Bool → StrBuf → Option StrBuf
  | [], _, sb => some sb
  | (k, v) :: rest, first, sb =>
      ((if first then some sb else strbuf_append sb ", ").bind (fun sb1 =>
        (strbuf_append sb1 "[").bind (fun sb2 =>
          (strbuf_append_lua_string sb2 k).bind (fun sb3 =>
            (strbuf_append sb3 "] = ").bind (fun sb4 =>
              (serialize_cjson_to_lua g17 v sb4).bind (fun sb5 =>
                serializeMembers g17 rest false sb5))))))

end

/-!
## Log query tool (src/main/mcp_log.c)

The ring buffer holds `LOG_MAX_LINES = CONFIG_MCP_LOG_BUFFER_SIZE / 64 =
64` entries.  The FreeRTOS mutex is external: `mutexInit` models whether
`mcp_log_init` created it, `mutexOk` whether the 100 ms `xSemaphoreTake`
succeeded.  The bounded output arithmetic mirrors the C `written`
counter; the byte-level model is exact as long as every write stays in
bounds, which the claim theorem establishes for the caller's 2048-byte
buffer.
-/

/-- A captured log line (`log_entry_t`): text, numeric
`esp_log_level_t` severity (error=1 .. verbose=5), timestamp. -/
structure LogEntry where
  text : String
  level : Nat
  timestamp_ms : Int
deriving Repr

instance : Inhabited LogEntry := ⟨⟨"", 3, 0⟩⟩

/-- `parse_level_string` (src/main/mcp_log.c, lines 106-115): unknown
strings fall back to ESP_LOG_INFO = 3. -/
def parse_level_string (s : String) : Nat :=
  if s = "error" then 1
  else if s = "warn" then 2
  else if s = "info" then 3
  else if s = "debug" then 4
  else if s = "verbose" then 5
  else 3

/-- The minimum-severity selection of `tool_sys_get_logs` (lines
124-128): only a string `level` member changes the INFO default. -/
def logsMinLevel (args : Option Json) : Nat :=
  match args with
  | none => 3
  | some a =>
    match getItem a "level" with
    | some (.str s) => parse_level_string s
    | _ => 3

/-- The line-count clamp of `tool_sys_get_logs` (lines 129-134):
default 20; a numeric `lines` member is clamped into [1, 64]. -/
def logsMaxLines (args : Option Json) : Int :=
  match args with
  | none => 20
  | some a =>
    match getItem a "lines" with
    | some (.number n _) => if n < 1 then 1 else if n > 64 then 64 else n
    | _ => 20

/-- The substring filter selection (lines 135-138). -/
def logsFilter (args : Option Json) : Option String :=
  match args with
  | none => none
  | some a =>
    match getItem a "filter" with
    | some (.str s) => some s
    | _ => none

/-- The per-entry selection test: severity at most the minimum level
(numerically `level > min_level` is skipped) and, when a filter is
given, `strstr` finds it in the text. -/
def logPass (minLevel : Nat) (filter : Option String) (e : LogEntry) : Bool :=
  decide (e.level ≤ minLevel) &&
    (match filter with
     | none => true
     | some f => decide (f.data <:+: e.text.data))

/-- The oldest-to-newest read sequence over the ring storage (lines
151-162): start at 0 while the ring has not wrapped, else at the write
head. -/
def logsSeq (ring : List LogEntry) (head count : Nat) : List LogEntry :=
  let start := if count < 64 then 0 else head
  (List.range count).map (fun i => ring.getD ((start + i) % 64) default)

/-- Bounded output buffer: the text actually in the buffer plus the C
`written` counter (which `snprintf` advances by the untruncated
length). -/
structure WBuf where
  out : String
  written : Nat
deriving Repr

/-- One `written += snprintf(result + written, max_len - written, ...)`
step.  Faithful to the byte layout whenever no write actually
truncates — established in the claim theorem for the 2048-byte caller
buffer. -/
def wb_snprintf (max_len : Nat) (b : WBuf) (s : String) : WBuf :=
  let space := max_len - b.written
  { out := b.out ++ (if space = 0 then "" else ctake (space - 1) s)
    written := b.written + s.length }

/-- The JSON escape used for log text (lines 190-203): quote, backslash
and newline get two-character escapes. -/
def logEsc (c : Char) : String :=
  if c = '"' then "\\\""
  else if c = '\\' then "\\\\"
  else if c = '\n' then "\\n"
  else String.mk [c]

/-- The character-escape loop (lines 190-203): direct buffer writes,
guarded by `written < max_len - 20`. -/
def wb_escape (max_len : Nat) : List Char → WBuf → WBuf
  | [], b => b
  | c :: rest, b =>
      if b.written < max_len - 20 then
        wb_escape max_len rest
          { out := b.out ++ logEsc c, written := b.written + (logEsc c).length }
      else b

/-- Emission of one matching entry (lines 180-204): separator comma,
`{"t":<ts>,"msg":"` prefix, escaped text, closing `"}`. -/
def logs_emit_entry (max_len : Nat) (e : LogEntry) (first : Bool) (b : WBuf) : WBuf :=
  let b1 := if first then b else wb_snprintf max_len b ","
  let b2 := wb_snprintf max_len b1 ("\x7b\"t\":" ++ toString e.timestamp_ms ++ ",\"msg\":\"")
  let b3 := wb_escape max_len e.text.data b2
  wb_snprintf max_len b3 "\"\x7d"

/-- The output loop of `tool_sys_get_logs` (lines 170-208): skip
non-matching entries, then the first `skip` matches, emit the rest, and
stop once `written` crosses `max_len - 100`. -/
def logs_loop (max_len minLevel : Nat) (filter : Option String) :
    List LogEntry → Nat → Bool → WBuf → WBuf
  | [], _, _, b => b
  | e :: rest, skip, first, b =>
      if ¬ logPass minLevel filter e then
        logs_loop max_len minLevel filter rest skip first b
      else if skip > 0 then
        logs_loop max_len minLevel filter rest (skip - 1) first b
      else
        let b1 := logs_emit_entry max_len e first b
        if b1.written ≥ max_len - 100 then b1
        else logs_loop max_len minLevel filter rest skip false b1

/-- `tool_sys_get_logs` (src/main/mcp_log.c, lines 117-217): parameter
parsing, the guarded ring walk (first pass counts matches to compute
`skip`, keeping only the last `max_lines` matches), and the bracketed
output.  When the mutex was never created the tool reports
ESP_ERR_INVALID_STATE; when the 100 ms acquisition times out the
brackets close over an empty body. -/
def tool_sys_get_logs (ring : List LogEntry) (head count : Nat)
    (args : Option Json) (mutexInit mutexOk : Bool) (max_len : Nat) :
    EspErr × String :=
  let minLevel := logsMinLevel args
  let maxLines := logsMaxLines args
  let filter := logsFilter args
  if ¬mutexInit then
    (.invalidState, ctake (max_len - 1) "Log system not initialized")
  else
    let b0 := wb_snprintf max_len ⟨"", 0⟩ "["
    let b1 :=
      if mutexOk then
        let seq := logsSeq ring head count
        let matchCount := (seq.filter (logPass minLevel filter)).length
        let skip := if (matchCount : Int) > maxLines then ((matchCount : Int) - maxLines).toNat else 0
        logs_loop max_len minLevel filter seq skip true b0
      else b0
    let b2 := wb_snprintf max_len b1 "]"
    (.ok, b2.out)

/-!
## General lemmas about the bounded-buffer model
-/

theorem ctake_of_le (n : Nat) (s : String) (h : s.length ≤ n) : ctake n s = s := by
  unfold ctake
  rw [List.take_of_length_le h]

theorem ctake_append_of_le (n : Nat) (a b : String) (h : a.length ≤ n) :
    ctake n (a ++ b) = a ++ ctake (n - a.length) b := by
  unfold ctake
  rw [String.data_append, List.take_append_eq_append_take, List.take_of_length_le h]
  cases a
  cases b
  rfl

/-!
## C3: response round trip
-/

/-- C3: for every integer identifier and every JSON value, the tree
built by `jsonrpc_create_response` (and handed to the external cJSON
serializer) is classified back by the repository's parser as a success
Response carrying the same identifier and a structurally equal result. -/
theorem jsonrpc_response_roundtrip (id : Int) (result : Json) :
    jsonrpc_parse_tree (jsonrpc_create_response id result) =
      some { type := .response, id := id, has_id := true, method := ""
             params := none, result := some result
             error_code := 0, error_message := "" } := by
  simp [jsonrpc_parse_tree, jsonrpc_create_response, getItem, jlookup, coerceId]

/-!
## C9: identifier handling across the codec
-/

/-- Every successfully parsed message takes its `id` and `has_id` fields
from the identifier coercion of the `id` member. -/
theorem parse_tree_id_fields (root : Json) (m : JsonrpcMessage)
    (h : jsonrpc_parse_tree root = some m) :
    m.has_id = (coerceId (getItem root "id")).1
    ∧ m.id = (coerceId (getItem root "id")).2 := by
  unfold jsonrpc_parse_tree at h
  split at h
  case _ v heq =>
    split at h
    case isTrue hv =>
      split at h
      case _ ms hm =>
        injection h with h2
        subst h2
        exact ⟨rfl, rfl⟩
      case _ hm =>
        split at h
        case _ r hr =>
          injection h with h2
          subst h2
          exact ⟨rfl, rfl⟩
        case _ hr =>
          split at h
          case _ e he =>
            injection h with h2
            subst h2
            exact ⟨rfl, rfl⟩
          case _ he => cases h
    case isFalse hv => cases h
  case _ hne => cases h

/-- The digit loop of `atoi` stops immediately on a non-digit head. -/
theorem atoiLoop_of_no_digit (l : List Char) (h : ∀ c ∈ l, c.isDigit = false) :
    atoiLoop l 0 = 0 := by
  cases l with
  | nil => rfl
  | cons c rest =>
    unfold atoiLoop
    rw [h c (List.mem_cons_self c rest)]
    simp

/-- C9: numeric identifiers pass through parsing unchanged; string
identifiers are best-effort parsed via `atoi`, with digit-free strings
coercing to the sentinel 0; and `jsonrpc_create_error` always carries a
numeric code plus a human message, emitting the identifier member as
JSON null exactly when the identifier is the unknown sentinel 0. -/
theorem jsonrpc_identifier_handling :
    (∀ root m n d, getItem root "id" = some (.number n d) →
        jsonrpc_parse_tree root = some m → m.has_id = true ∧ m.id = n)
    ∧ (∀ root m s, getItem root "id" = some (.str s) →
        jsonrpc_parse_tree root = some m → m.has_id = true ∧ m.id = atoi s)
    ∧ (∀ s : String, (∀ c ∈ s.data, c.isDigit = false) → atoi s = 0)
    ∧ (∀ id code msg,
        (getItem (jsonrpc_create_error id code msg) "id" = some .null ↔ id = 0)
        ∧ getItem (jsonrpc_create_error id code msg) "error" =
            some (.obj [("code", .number code code),
                        ("message", .str (msg.getD "Unknown error"))])) := by
  refine ⟨?_, ?_, ?_, ?_⟩
  · intro root m n d hid h
    have hf := parse_tree_id_fields root m h
    rw [hid] at hf
    simpa [coerceId] using hf
  · intro root m s hid h
    have hf := parse_tree_id_fields root m h
    rw [hid] at hf
    simpa [coerceId] using hf
  · intro s h
    have hsub : ∀ c ∈ s.data.dropWhile isCSpace, c.isDigit = false := by
      intro c hc
      exact h c ((List.dropWhile_sublist isCSpace).mem hc)
    unfold atoi
    cases hd : s.data.dropWhile isCSpace with
    | nil => rfl
    | cons c rest =>
      rw [hd] at hsub
      have hrest : ∀ x ∈ rest, x.isDigit = false :=
        fun x hx => hsub x (List.mem_cons_of_mem _ hx)
      by_cases hm : c = '-'
      · simp only [hm, if_true, atoiLoop_of_no_digit rest hrest]
        rfl
      · by_cases hp : c = '+'
        · simp only [hm, hp, if_false, if_true, atoiLoop_of_no_digit rest hrest]
          rfl
        · simp only [hm, hp, if_false, atoiLoop_of_no_digit (c :: rest) hsub]
          rfl
  · intro id code msg
    constructor
    · by_cases hid : id = 0
      · simp [jsonrpc_create_error, getItem, jlookup, hid]
      · simp [jsonrpc_create_error, getItem, jlookup, hid]
    · simp [jsonrpc_create_error, getItem, jlookup]

/-- Concrete instantiation of `jsonrpc_identifier_handling`. -/
theorem jsonrpc_identifier_handling_witness :
    (∃ m, jsonrpc_parse_tree
        (Json.obj [("jsonrpc", Json.str "2.0"), ("id", Json.str "abc"),
                   ("method", Json.str "ping")]) = some m
      ∧ (m.has_id = true ∧ m.id = atoi "abc"))
    ∧ (∃ m, jsonrpc_parse_tree
        (Json.obj [("jsonrpc", Json.str "2.0"), ("id", Json.number 42 42),
                   ("method", Json.str "ping")]) = some m
      ∧ (m.has_id = true ∧ m.id = 42))
    ∧ atoi "abc" = 0
    ∧ getItem (jsonrpc_create_error 0 (-32700) none) "id" = some Json.null :=
  ⟨⟨_, rfl,
     jsonrpc_identifier_handling.2.1
       (Json.obj [("jsonrpc", Json.str "2.0"), ("id", Json.str "abc"),
                  ("method", Json.str "ping")]) _ "abc" rfl rfl⟩,
   ⟨_, rfl,
     jsonrpc_identifier_handling.1
       (Json.obj [("jsonrpc", Json.str "2.0"), ("id", Json.number 42 42),
                  ("method", Json.str "ping")]) _ 42 42 rfl rfl⟩,
   jsonrpc_identifier_handling.2.2.1 "abc" (by decide),
   (jsonrpc_identifier_handling.2.2.2 0 (-32700) none).1.mpr rfl⟩

/-!
## C6: script store round trip
-/

/-- Looking up the path just stored returns the stored content. -/
theorem storeGet_storePut (st : ScriptStore) (p v : String) :
    storeGet (storePut st p v) p = some v := by
  induction st with
  | nil => simp [storePut, storeGet]
  | cons hd tl ih =>
    obtain ⟨q, c⟩ := hd
    by_cases hq : q = p
    · simp [storePut, storeGet, hq]
    · simp [storePut, storeGet, hq, ih]

/-- C6: an overwrite push followed by a get returns exactly the pushed
content; a subsequent append push makes get return the concatenation;
and get on a never-written name is a not-found failure with the
descriptive message. -/
theorem lua_script_store_roundtrip (st : ScriptStore) (n c c2 : String) (max_len : Nat)
    (h1 : c.length ≤ max_len - 1) (h2 : (c ++ c2).length ≤ max_len - 1) :
    lua_runtime_get_script (lua_runtime_push_script st n c false) n max_len = (.ok, c)
    ∧ lua_runtime_get_script
        (lua_runtime_push_script (lua_runtime_push_script st n c false) n c2 true)
        n max_len = (.ok, c ++ c2)
    ∧ (∀ m (st2 : ScriptStore), storeGet st2 (sPath m) = none →
        lua_runtime_get_script st2 m max_len
          = (.notFound, ctake (max_len - 1) ("Script not found: " ++ m))) := by
  refine ⟨?_, ?_, ?_⟩
  · unfold lua_runtime_get_script lua_runtime_push_script
    simp only [Bool.false_eq_true, if_false, storeGet_storePut, ctake_of_le _ _ h1]
  · unfold lua_runtime_get_script lua_runtime_push_script
    simp only [Bool.false_eq_true, if_false, if_true, storeGet_storePut,
               Option.getD_some, ctake_of_le _ _ h2]
  · intro m st2 hget
    unfold lua_runtime_get_script
    rw [hget]

/-- Concrete instantiation of `lua_script_store_roundtrip`. -/
theorem lua_script_store_roundtrip_witness :
    lua_runtime_get_script (lua_runtime_push_script [] "x.lua" "return 1" false)
        "x.lua" 2048 = (.ok, "return 1")
    ∧ lua_runtime_get_script
        (lua_runtime_push_script (lua_runtime_push_script [] "x.lua" "return 1" false)
          "x.lua" "return 2" true) "x.lua" 2048 = (.ok, "return 1" ++ "return 2")
    ∧ lua_runtime_get_script [] "missing.lua" 2048
        = (.notFound, ctake 2047 ("Script not found: " ++ "missing.lua")) :=
  ⟨(lua_script_store_roundtrip [] "x.lua" "return 1" "return 2" 2048
      (by decide) (by decide)).1,
   (lua_script_store_roundtrip [] "x.lua" "return 1" "return 2" 2048
      (by decide) (by decide)).2.1,
   (lua_script_store_roundtrip [] "x.lua" "return 1" "return 2" 2048
      (by decide) (by decide)).2.2 "missing.lua" [] rfl⟩

/-!
## C5: OTA push admission
-/

/-- C5: `tool_sys_ota_push` is rejected with ESP_ERR_INVALID_STATE
exactly while the session is Downloading or Writing, and the rejection
leaves the session record (state, progress, message) untouched; from
Idle or Error with a valid url and a successful task spawn it succeeds,
spawns the download task, leaves the session to be initialised by that
task, and the task's first actions start the fresh session at
Downloading with 0% progress. -/
theorem ota_push_state_machine (s : OtaSession) (args : Json) (url : String)
    (spawnOk : Bool) (max_len : Nat) :
    ((s.state = .downloading ∨ s.state = .writing) →
        tool_sys_ota_push s args spawnOk max_len =
          (.invalidState,
           ctake (max_len - 1) ("OTA already in progress (state: "
             ++ toString (otaStateNum s.state)
             ++ ", progress: " ++ toString s.progress_pct ++ "%)"),
           s, false))
    ∧ (¬(s.state = .downloading ∨ s.state = .writing) →
        (tool_sys_ota_push s args spawnOk max_len).1 ≠ .invalidState)
    ∧ ((s.state = .idle ∨ s.state = .error) → getItem args "url" = some (.str url) →
        url.length ≠ 0 → spawnOk = true →
        (tool_sys_ota_push s args spawnOk max_len).1 = .ok
        ∧ (tool_sys_ota_push s args spawnOk max_len).2.2.2 = true
        ∧ (tool_sys_ota_push s args spawnOk max_len).2.2.1 = s
        ∧ (ota_task_begin url s).state = .downloading
        ∧ (ota_task_begin url s).progress_pct = 0) := by
  refine ⟨?_, ?_, ?_⟩
  · intro h
    unfold tool_sys_ota_push
    rw [if_pos h]
  · intro h
    unfold tool_sys_ota_push
    rw [if_neg h]
    rcases hu : getItem args "url" with _ | u
    · simp
    · cases u with
      | str u2 =>
        by_cases hl : u2.length = 0
        · simp [hl]
        · by_cases hs2 : spawnOk = true
          · simp [hl, hs2]
          · simp [hl, hs2]
      | null => simp
      | boolean b => simp
      | number i d => simp
      | arr l => simp
      | obj l => simp
      | raw t => simp
  · intro h hurl hlen hspawn
    have hnot : ¬(s.state = .downloading ∨ s.state = .writing) := by
      rcases h with h | h <;> simp [h]
    unfold tool_sys_ota_push
    rw [if_neg hnot, hurl]
    simp only [if_neg hlen, hspawn, if_true]
    exact ⟨by simp, by simp, by simp, rfl, rfl⟩

/-- Concrete instantiation of `ota_push_state_machine`. -/
theorem ota_push_state_machine_witness :
    tool_sys_ota_push ⟨.downloading, 37, "busy"⟩
        (Json.obj [("url", Json.str "http://h/fw.bin")]) true 2048 =
      (.invalidState,
       ctake 2047 ("OTA already in progress (state: " ++ toString (otaStateNum .downloading)
         ++ ", progress: " ++ toString (37 : Int) ++ "%)"),
       ⟨.downloading, 37, "busy"⟩, false)
    ∧ (tool_sys_ota_push ⟨.idle, 99, "old"⟩
        (Json.obj [("url", Json.str "http://h/fw.bin")]) true 2048).1 = .ok
    ∧ (ota_task_begin "http://h/fw.bin" ⟨.idle, 99, "old"⟩).progress_pct = 0 :=
  ⟨(ota_push_state_machine ⟨.downloading, 37, "busy"⟩
      (Json.obj [("url", Json.str "http://h/fw.bin")]) "http://h/fw.bin" true 2048).1
      (Or.inl rfl),
   ((ota_push_state_machine ⟨.idle, 99, "old"⟩
      (Json.obj [("url", Json.str "http://h/fw.bin")]) "http://h/fw.bin" true 2048).2.2
      (Or.inl rfl) rfl (by decide) rfl).1,
   ((ota_push_state_machine ⟨.idle, 99, "old"⟩
      (Json.obj [("url", Json.str "http://h/fw.bin")]) "http://h/fw.bin" true 2048).2.2
      (Or.inl rfl) rfl (by decide) rfl).2.2.2.2⟩

/-!
## C8: exec result capture and background relaunch
-/

/-- C8: `lua_runtime_exec` against a live VM renders a left-behind value
as the result, reports the "ok" sentinel when the stack is empty, and
captures a raised error as "error: <message>" together with a failure
status; in each case the background entry-point context is relaunched
afterward exactly when it had been running when exec was called
(`taskHandle` is preserved). -/
theorem lua_exec_result_and_relaunch (rt : LuaRt) (outcome : LuaOutcome)
    (max_len : Nat) (hvm : rt.vm = true) :
    (∀ s, outcome = .value s →
        lua_runtime_exec rt true outcome true max_len =
          (.ok, some (ctake (max_len - 1) (s.getD "nil")),
           { vm := rt.vm, taskHandle := rt.taskHandle, taskRunning := rt.taskHandle }))
    ∧ (outcome = .noValue →
        lua_runtime_exec rt true outcome true max_len =
          (.ok, some (ctake (max_len - 1) "ok"),
           { vm := rt.vm, taskHandle := rt.taskHandle, taskRunning := rt.taskHandle }))
    ∧ (∀ m, outcome = .err m →
        lua_runtime_exec rt true outcome true max_len =
          (.fail, some (ctake (max_len - 1) ("error: " ++ m.getD "unknown")),
           { vm := rt.vm, taskHandle := rt.taskHandle, taskRunning := rt.taskHandle })) := by
  obtain ⟨v, th, tr⟩ := rt
  simp only [LuaRt.vm] at hvm
  subst hvm
  refine ⟨?_, ?_, ?_⟩
  · intro s hout
    subst hout
    cases th <;> simp [lua_runtime_exec, lua_runtime_start]
  · intro hout
    subst hout
    cases th <;> simp [lua_runtime_exec, lua_runtime_start]
  · intro m hout
    subst hout
    cases th <;> simp [lua_runtime_exec, lua_runtime_start]

/-- Concrete instantiation of `lua_exec_result_and_relaunch`. -/
theorem lua_exec_result_and_relaunch_witness :
    lua_runtime_exec ⟨true, true, true⟩ true (.value (some "42")) true 2048 =
      (.ok, some (ctake 2047 "42"), ⟨true, true, true⟩)
    ∧ lua_runtime_exec ⟨true, false, false⟩ true .noValue true 2048 =
      (.ok, some (ctake 2047 "ok"), ⟨true, false, false⟩)
    ∧ lua_runtime_exec ⟨true, true, true⟩ true (.err (some "boom")) true 2048 =
      (.fail, some (ctake 2047 ("error: " ++ "boom")), ⟨true, true, true⟩) :=
  ⟨(lua_exec_result_and_relaunch ⟨true, true, true⟩ (.value (some "42")) 2048 rfl).1
     (some "42") rfl,
   (lua_exec_result_and_relaunch ⟨true, false, false⟩ .noValue 2048 rfl).2.1 rfl,
   (lua_exec_result_and_relaunch ⟨true, true, true⟩ (.err (some "boom")) 2048 rfl).2.2
     (some "boom") rfl⟩

/-!
## C2: requests always answered, notifications never
-/

/-- C2: every message the codec classifies as a Request (method plus
identifier) gets exactly one response from
`mcp_server_process_message`, whatever the dispatched handler does; every
Notification (method, no identifier) gets none. -/
theorem mcp_request_notification_response (env : Env) (msg : String) (m : JsonrpcMessage)
    (h : jsonrpc_parse_message env.parseText msg = some m) :
    (m.type = .request → (mcp_server_process_message env msg).isSome = true)
    ∧ (m.type = .notification → mcp_server_process_message env msg = none) := by
  constructor
  · intro ht
    rcases hd : mcp_dispatch_method env m.method m.params with ⟨e, r⟩
    simp only [mcp_server_process_message, h, ht, hd]
    cases e <;> cases r <;> simp
  · intro ht
    simp only [mcp_server_process_message, h, ht]

/-- Concrete instantiation of `mcp_request_notification_response`. -/
theorem mcp_request_notification_response_witness :
    (mcp_server_process_message
      ⟨fun _ => some (Json.obj [("jsonrpc", Json.str "2.0"), ("id", Json.number 1 1),
                                ("method", Json.str "ping")]),
       fun _ _ => (.ok, "")⟩ "x").isSome = true
    ∧ mcp_server_process_message
      ⟨fun _ => some (Json.obj [("jsonrpc", Json.str "2.0"),
                                ("method", Json.str "ping")]),
       fun _ _ => (.ok, "")⟩ "y" = none :=
  ⟨(mcp_request_notification_response
      ⟨fun _ => some (Json.obj [("jsonrpc", Json.str "2.0"), ("id", Json.number 1 1),
                                ("method", Json.str "ping")]),
       fun _ _ => (.ok, "")⟩ "x" _ rfl).1 rfl,
   (mcp_request_notification_response
      ⟨fun _ => some (Json.obj [("jsonrpc", Json.str "2.0"),
                                ("method", Json.str "ping")]),
       fun _ _ => (.ok, "")⟩ "y" _ rfl).2 rfl⟩

/-!
## C4: unknown tool is a payload-level error inside a success envelope
-/

/-- C4: a `tools/call` request for a name absent from the registry is
answered with a JSON-RPC success envelope whose result payload carries
`isError: true` and a text containing "not found"; and an omitted
`arguments` object is replaced by an empty one before execution. -/
theorem tools_call_unknown_tool (env : Env) (nm : String) (n : Int) (msg : String)
    (hfind : mcp_tools_find nm = none)
    (hparse : env.parseText msg = some (Json.obj
      [("jsonrpc", Json.str "2.0"), ("id", Json.number n n),
       ("method", Json.str "tools/call"),
       ("params", Json.obj [("name", Json.str nm)])])) :
    (∃ pre post : String,
        mcp_server_process_message env msg =
          some (jsonrpc_create_response n (Json.obj
            [("content", Json.arr [Json.obj [("type", Json.str "text"),
                ("text", Json.str (pre ++ "not found" ++ post))]]),
             ("isError", Json.boolean true)])))
    ∧ (∀ p, mcp_handle_tools_call env (some (Json.obj [("name", Json.str p)])) =
        mcp_handle_tools_call env
          (some (Json.obj [("name", Json.str p), ("arguments", Json.obj [])]))) := by
  constructor
  · refine ⟨"Tool ", ": " ++ ctake 2031 nm, ?_⟩
    unfold mcp_server_process_message jsonrpc_parse_message
    rw [hparse]
    simp only [Option.some_bind]
    rw [show jsonrpc_parse_tree (Json.obj
      [("jsonrpc", Json.str "2.0"), ("id", Json.number n n),
       ("method", Json.str "tools/call"),
       ("params", Json.obj [("name", Json.str nm)])]) =
        some { type := .request, id := n, has_id := true, method := "tools/call"
               params := some (Json.obj [("name", Json.str nm)]), result := none
               error_code := 0, error_message := "" } from by
      simp [jsonrpc_parse_tree, getItem, jlookup, coerceId]
      decide]
    have hc : ctake 2047 ("Tool not found: " ++ nm) = "Tool not found: " ++ ctake 2031 nm := by
      rw [ctake_append_of_le 2047 "Tool not found: " nm (by decide),
          show ("Tool not found: " : String).length = 16 from rfl]
    simp [mcp_dispatch_method, mcp_handle_tools_call, mcp_tools_execute, getItem, jlookup,
          hfind, hc]
    rw [show ("Tool not found: " : String) = "Tool not found" ++ ": " from rfl,
        String.append_assoc]
  · intro p
    simp [mcp_handle_tools_call, getItem, jlookup]

/-- Concrete instantiation of `tools_call_unknown_tool`. -/
theorem tools_call_unknown_tool_witness :
    ∃ pre post : String,
      mcp_server_process_message
        ⟨fun _ => some (Json.obj
          [("jsonrpc", Json.str "2.0"), ("id", Json.number 3 3),
           ("method", Json.str "tools/call"),
           ("params", Json.obj [("name", Json.str "nonexistent")])]),
         fun _ _ => (.ok, "")⟩ "m" =
        some (jsonrpc_create_response 3 (Json.obj
          [("content", Json.arr [Json.obj [("type", Json.str "text"),
              ("text", Json.str (pre ++ "not found" ++ post))]]),
           ("isError", Json.boolean true)])) :=
  (tools_call_unknown_tool
    ⟨fun _ => some (Json.obj
      [("jsonrpc", Json.str "2.0"), ("id", Json.number 3 3),
       ("method", Json.str "tools/call"),
       ("params", Json.obj [("name", Json.str "nonexistent")])]),
     fun _ _ => (.ok, "")⟩ "nonexistent" 3 "m" rfl rfl).1

/-!
## C1: restart exclusivity and exactly-one-context
-/

/-- The inductive invariant of the restart protocol: at most one
background context exists, and none exists while the restart caller is
inside its VM teardown/recreation phase. -/
def RInv (c : RConfig) : Prop :=
  c.bg ≤ 1 ∧ (restartTouchesVm c.pc → c.bg = 0)

/-- `RInv` is preserved by every step of the interleaved system. -/
theorem rstep_preserves_inv {vmOk spawnOk : Bool} {c c2 : RConfig}
    (hinv : RInv c) (hs : RStep vmOk spawnOk c c2) : RInv c2 := by
  obtain ⟨hle, htouch⟩ := hinv
  cases hs with
  | stopTask b => exact ⟨Nat.zero_le 1, fun _ => rfl⟩
  | recreateVm b hvm =>
    have hb : b = 0 := htouch (Or.inl rfl)
    subst hb
    exact ⟨Nat.zero_le 1, fun _ => rfl⟩
  | recreateVmFail b hvm =>
    have hb : b = 0 := htouch (Or.inl rfl)
    subst hb
    exact ⟨Nat.zero_le 1, fun h => by rcases h with h | h <;> cases h⟩
  | relaunch b hsp =>
    have hb : b = 0 := htouch (Or.inr rfl)
    subst hb
    exact ⟨le_refl 1, fun h => by rcases h with h | h <;> cases h⟩
  | relaunchFail b hsp =>
    have hb : b = 0 := htouch (Or.inr rfl)
    subst hb
    exact ⟨Nat.zero_le 1, fun h => by rcases h with h | h <;> cases h⟩
  | bgExit pc b =>
    have hle2 : b + 1 ≤ 1 := hle
    refine ⟨show b ≤ 1 by omega, fun h => ?_⟩
    have h0 : b + 1 = 0 := htouch h
    exact absurd h0 (Nat.succ_ne_zero b)

/-- `RInv` holds in every configuration reachable from a legal start. -/
theorem rreach_inv {vmOk spawnOk : Bool} {c0 c : RConfig}
    (h0 : RInv c0) (hr : RReach vmOk spawnOk c0 c) : RInv c := by
  induction hr with
  | refl => exact h0
  | tail _ hstep ih => exact rstep_preserves_inv ih hstep

/-- C1: starting a restart while at most one background script context
is live (the system invariant enforced by `lua_runtime_start`), every
reachable configuration has at most one live context, the restart
caller's VM teardown/recreation phase never overlaps a live context
(no two execution contexts ever touch the VM simultaneously), and the
step that completes the restart — reaching `done`, i.e. `create_vm` and
`xTaskCreate` succeeded — leaves exactly one live context: never zero,
never two. -/
theorem lua_runtime_restart_exclusive (vmOk spawnOk : Bool) (b0 : Nat)
    (hb : b0 ≤ 1) (c : RConfig)
    (hr : RReach vmOk spawnOk ⟨.start, b0⟩ c) :
    c.bg ≤ 1
    ∧ (restartTouchesVm c.pc → c.bg = 0)
    ∧ (∀ c2, RStep vmOk spawnOk c c2 → c.pc ≠ .done → c2.pc = .done → c2.bg = 1) := by
  have hinv : RInv c := rreach_inv ⟨hb, fun h => by rcases h with h | h <;> cases h⟩ hr
  refine ⟨hinv.1, hinv.2, ?_⟩
  intro c2 hs hne hdone
  cases hs with
  | stopTask b => cases hdone
  | recreateVm b hvm => cases hdone
  | recreateVmFail b hvm => cases hdone
  | relaunch b hsp =>
    have hb0 : b = 0 := hinv.2 (Or.inr rfl)
    simp [hb0]
  | relaunchFail b hsp => cases hdone
  | bgExit pc b => exact absurd hdone hne

/-- Concrete instantiation of `lua_runtime_restart_exclusive`: restart
invoked while the entry-point context is mid-execution (one live
context), observed after the VM has been recreated and about to
relaunch. -/
theorem lua_runtime_restart_exclusive_witness :
    (⟨RPc.vmReady, 0⟩ : RConfig).bg ≤ 1
    ∧ (restartTouchesVm (⟨RPc.vmReady, 0⟩ : RConfig).pc → (⟨RPc.vmReady, 0⟩ : RConfig).bg = 0)
    ∧ (∀ c2, RStep true true ⟨RPc.vmReady, 0⟩ c2 →
        (⟨RPc.vmReady, 0⟩ : RConfig).pc ≠ .done → c2.pc = .done → c2.bg = 1) :=
  lua_runtime_restart_exclusive true true 1 (by decide) ⟨RPc.vmReady, 0⟩
    (Relation.ReflTransGen.head (RStep.stopTask 1)
      (Relation.ReflTransGen.single (RStep.recreateVm 0 rfl)))

/-!
## C7: the Lua literal serializer implements its rendering rules

`luaRenderSpec` is the specification-side description of the output:
the unbounded string each value tree must render to, following the
spec's rules (null to nil, boolean passthrough, integral numbers via
`%d`, other numbers via the external `%.17g`, escaped quoted strings,
brace sequences and keyed brace mappings).  The claim theorem relates
the embedded `serialize_cjson_to_lua` to it: with enough buffer space
the serializer emits exactly that string, and on buffer exhaustion or
an unsupported node kind it reports failure instead of emitting a
truncated result.
-/

/-- Concatenation of a list of strings. -/
def strJoin : List String → String
  | [] => ""
  | a :: rest => a ++ strJoin rest

/-- Spec-side rendering of one string value: quoted, with every
character escaped through `luaEsc`. -/
def luaStrRender (s : String) : String :=
  "\"" ++ (strJoin (s.data.map luaEsc) ++ "\"")

mutual

/-- Spec-side rendering of a value tree (the string the claim's rules
prescribe); `none` for unsupported node kinds. -/
def luaRenderSpec (g17 : Rat → String) : Json → Option String
  | .null => some "nil"
  | .boolean b => some (if b then "true" else "false")
  | .number i d => some (if (i : Rat) = d then toString i else g17 d)
  | .str s => some (luaStrRender s)
  | .arr items =>
      (luaRenderItemsSpec g17 items true).map (fun b => "\x7b" ++ (b ++ "\x7d"))
  | .obj members =>
      (luaRenderMembersSpec g17 members true).map (fun b => "\x7b" ++ (b ++ "\x7d"))
  | .raw _ => none

/-- Spec-side rendering of the comma-separated element sequence. -/
def luaRenderItemsSpec (g17 : Rat → String) : List Json → Bool → Option String
  | [], _ => some ""
  | j :: rest, first =>
      (luaRenderSpec g17 j).bind (fun h =>
        (luaRenderItemsSpec g17 rest false).map (fun t =>
          (if first then "" else ", ") ++ (h ++ t)))

/-- Spec-side rendering of the keyed member sequence. -/
def luaRenderMembersSpec (g17 : Rat → String) :
    List (String × Json) → Bool → Option String
  | [], _ => some ""
  | (k, v) :: rest, first =>
      (luaRenderSpec g17 v).bind (fun h =>
        (luaRenderMembersSpec g17 rest false).map (fun t =>
          (if first then "" else ", ") ++ ("[" ++ (luaStrRender k ++ ("] = " ++ (h ++ t)))))) 

end

/-- `f` behaves like a bounded append of the fixed text `s`: it writes
`s` when it fits strictly inside the remaining capacity and fails
otherwise — the contract of `strbuf_append`. -/
def AppendsLike (f : StrBuf → Option StrBuf) (s : String) : Prop :=
  ∀ sb, f sb = if s.length < sb.remaining
               then some ⟨sb.out ++ s, sb.remaining - s.length⟩ else none

/-- Like `AppendsLike`, except that an empty sequence of appends is the
identity (it cannot fail even with an exhausted buffer). -/
def AppendsLikeI (f : StrBuf → Option StrBuf) (s : String) : Prop :=
  (s = "" ∧ ∀ sb, f sb = some sb) ∨ AppendsLike f s

/-- `f` always reports failure. -/
def FailsLike (f : StrBuf → Option StrBuf) : Prop :=
  ∀ sb, f sb = none

theorem appendsLike_strbuf_append (s : String) :
    AppendsLike (fun sb => strbuf_append sb s) s :=
  fun _ => rfl

theorem AppendsLike.bind_ap {f g : StrBuf → Option StrBuf} {s t : String}
    (hf : AppendsLike f s) (hg : AppendsLike g t) :
    AppendsLike (fun sb => (f sb).bind g) (s ++ t) := by
  intro sb
  show (f sb).bind g = _
  have hlen : (s ++ t).length = s.length + t.length := String.length_append s t
  rw [hf sb]
  by_cases h1 : s.length < sb.remaining
  · rw [if_pos h1, Option.some_bind, hg]
    by_cases h2 : t.length < sb.remaining - s.length
    · rw [if_pos h2, if_pos (by omega), String.append_assoc, hlen, Nat.sub_sub]
    · rw [if_neg h2, if_neg (by omega)]
  · rw [if_neg h1, Option.none_bind, if_neg (by omega)]

theorem AppendsLikeI.bind_right {f g : StrBuf → Option StrBuf} {s t : String}
    (hf : AppendsLike f s) (hg : AppendsLikeI g t) :
    AppendsLike (fun sb => (f sb).bind g) (s ++ t) := by
  rcases hg with ⟨ht, hid⟩ | hg
  · subst ht
    intro sb
    show (f sb).bind g = _
    rw [hf sb]
    by_cases h1 : s.length < sb.remaining
    · rw [if_pos h1, Option.some_bind, hid]
      rw [if_pos (by simpa using h1)]
      simp
    · rw [if_neg h1, Option.none_bind, if_neg (by simpa using h1)]
  · exact AppendsLike.bind_ap hf hg

theorem AppendsLikeI.bind_left {f g : StrBuf → Option StrBuf} {s t : String}
    (hf : AppendsLikeI f s) (hg : AppendsLike g t) :
    AppendsLike (fun sb => (f sb).bind g) (s ++ t) := by
  rcases hf with ⟨hs, hid⟩ | hf
  · subst hs
    intro sb
    show (f sb).bind g = _
    rw [hid sb, Option.some_bind, hg sb]
    simp
  · exact AppendsLike.bind_ap hf hg

theorem FailsLike.bind_before {f : StrBuf → Option StrBuf}
    (hf : FailsLike f) (g : StrBuf → Option StrBuf) :
    FailsLike (fun sb => (f sb).bind g) := by
  intro sb
  show (f sb).bind g = none
  rw [hf sb, Option.none_bind]

theorem FailsLike.bind_after {f g : StrBuf → Option StrBuf} {s : String}
    (hf : AppendsLike f s) (hg : FailsLike g) :
    FailsLike (fun sb => (f sb).bind g) := by
  intro sb
  show (f sb).bind g = none
  rw [hf sb]
  by_cases h1 : s.length < sb.remaining
  · rw [if_pos h1, Option.some_bind, hg]
  · rw [if_neg h1, Option.none_bind]

theorem FailsLike.bind_afterI {f g : StrBuf → Option StrBuf} {s : String}
    (hf : AppendsLikeI f s) (hg : FailsLike g) :
    FailsLike (fun sb => (f sb).bind g) := by
  rcases hf with ⟨hs, hid⟩ | hf
  · intro sb
    show (f sb).bind g = none
    rw [hid sb, Option.some_bind, hg]
  · exact FailsLike.bind_after hf hg

/-- The escape loop appends the concatenation of the per-character
escapes (an empty list of characters appends nothing). -/
theorem appendsLikeI_chars (cs : List Char) :
    AppendsLikeI (strbuf_append_chars cs) (strJoin (cs.map luaEsc)) := by
  induction cs with
  | nil => exact Or.inl ⟨rfl, fun _ => rfl⟩
  | cons c rest ih =>
    exact Or.inr (AppendsLikeI.bind_right (appendsLike_strbuf_append (luaEsc c)) ih)

/-- `strbuf_append_lua_string` appends exactly the quoted escaped
rendering. -/
theorem appendsLike_lua_string (v : String) :
    AppendsLike (fun sb => strbuf_append_lua_string sb v) (luaStrRender v) :=
  AppendsLike.bind_ap (appendsLike_strbuf_append "\"")
    (AppendsLikeI.bind_left (appendsLikeI_chars v.data)
      (appendsLike_strbuf_append "\""))

/-- Statement proved for every value node: the serializer appends the
spec rendering when one exists and always fails otherwise. -/
def SerOk (g17 : Rat → String) (j : Json) : Prop :=
  match luaRenderSpec g17 j with
  | some s => AppendsLike (serialize_cjson_to_lua g17 j) s
  | none => FailsLike (serialize_cjson_to_lua g17 j)

/-- Loop statement for array elements. -/
def SerItemsOk (g17 : Rat → String) (items : List Json) (first : Bool) : Prop :=
  match luaRenderItemsSpec g17 items first with
  | some s => AppendsLikeI (serializeItems g17 items first) s
  | none => FailsLike (serializeItems g17 items first)

/-- Loop statement for object members. -/
def SerMembersOk (g17 : Rat → String) (members : List (String × Json)) (first : Bool) : Prop :=
  match luaRenderMembersSpec g17 members first with
  | some s => AppendsLikeI (serializeMembers g17 members first) s
  | none => FailsLike (serializeMembers g17 members first)

/-- The comma separator is a no-op on the first element and a plain
append afterwards. -/
theorem appendsLikeI_sep (first : Bool) :
    AppendsLikeI (fun sb => if first then some sb else strbuf_append sb ", ")
      (if first then "" else ", ") := by
  cases first with
  | true => exact Or.inl ⟨rfl, fun _ => rfl⟩
  | false => exact Or.inr (appendsLike_strbuf_append ", ")

mutual

theorem serialize_ok (g17 : Rat → String) : ∀ j, SerOk g17 j
  | .null => appendsLike_strbuf_append "nil"
  | .boolean b => appendsLike_strbuf_append (if b then "true" else "false")
  | .number i d => by
      unfold SerOk luaRenderSpec
      by_cases hc : (i : Rat) = d
      · rw [if_pos hc]
        intro sb
        show (if (i : Rat) = d then strbuf_append sb (toString i)
              else strbuf_append sb (g17 d)) = _
        rw [if_pos hc]
        exact appendsLike_strbuf_append (toString i) sb
      · rw [if_neg hc]
        intro sb
        show (if (i : Rat) = d then strbuf_append sb (toString i)
              else strbuf_append sb (g17 d)) = _
        rw [if_neg hc]
        exact appendsLike_strbuf_append (g17 d) sb
  | .str s => appendsLike_lua_string s
  | .arr items => by
      have hi := serializeItems_ok g17 items true
      unfold SerOk luaRenderSpec
      unfold SerItemsOk at hi
      cases hr : luaRenderItemsSpec g17 items true with
      | none =>
        rw [hr] at hi
        intro sb
        show (strbuf_append sb "\x7b").bind
            (fun sb1 => (serializeItems g17 items true sb1).bind
              (fun sb2 => strbuf_append sb2 "\x7d")) = none
        exact FailsLike.bind_after (appendsLike_strbuf_append "\x7b")
          (FailsLike.bind_before hi _) sb
      | some s =>
        rw [hr] at hi
        intro sb
        show (strbuf_append sb "\x7b").bind
            (fun sb1 => (serializeItems g17 items true sb1).bind
              (fun sb2 => strbuf_append sb2 "\x7d")) = _
        exact AppendsLike.bind_ap (appendsLike_strbuf_append "\x7b")
          (AppendsLikeI.bind_left hi (appendsLike_strbuf_append "\x7d")) sb
  | .obj members => by
      have hm := serializeMembers_ok g17 members true
      unfold SerOk luaRenderSpec
      unfold SerMembersOk at hm
      cases hr : luaRenderMembersSpec g17 members true with
      | none =>
        rw [hr] at hm
        intro sb
        show (strbuf_append sb "\x7b").bind
            (fun sb1 => (serializeMembers g17 members true sb1).bind
              (fun sb2 => strbuf_append sb2 "\x7d")) = none
        exact FailsLike.bind_after (appendsLike_strbuf_append "\x7b")
          (FailsLike.bind_before hm _) sb
      | some s =>
        rw [hr] at hm
        intro sb
        show (strbuf_append sb "\x7b").bind
            (fun sb1 => (serializeMembers g17 members true sb1).bind
              (fun sb2 => strbuf_append sb2 "\x7d")) = _
        exact AppendsLike.bind_ap (appendsLike_strbuf_append "\x7b")
          (AppendsLikeI.bind_left hm (appendsLike_strbuf_append "\x7d")) sb
  | .raw _ => fun _ => rfl

theorem serializeItems_ok (g17 : Rat → String) :
    ∀ items first, SerItemsOk g17 items first
  | [], _ => Or.inl ⟨rfl, fun _ => rfl⟩
  | j :: rest, first => by
      have hj := serialize_ok g17 j
      have hr := serializeItems_ok g17 rest false
      unfold SerOk at hj
      unfold SerItemsOk at hr
      unfold SerItemsOk luaRenderItemsSpec
      cases hrj : luaRenderSpec g17 j with
      | none =>
        rw [hrj] at hj
        intro sb
        show ((if first then some sb else strbuf_append sb ", ").bind
            (fun sb1 => (serialize_cjson_to_lua g17 j sb1).bind
              (serializeItems g17 rest false))) = none
        exact FailsLike.bind_afterI (appendsLikeI_sep first)
          (FailsLike.bind_before hj _) sb
      | some sj =>
        rw [hrj] at hj
        cases hrr : luaRenderItemsSpec g17 rest false with
        | none =>
          rw [hrr] at hr
          intro sb
          show ((if first then some sb else strbuf_append sb ", ").bind
              (fun sb1 => (serialize_cjson_to_lua g17 j sb1).bind
                (serializeItems g17 rest false))) = none
          exact FailsLike.bind_afterI (appendsLikeI_sep first)
            (FailsLike.bind_after hj hr) sb
        | some st =>
          rw [hrr] at hr
          refine Or.inr ?_
          intro sb
          show ((if first then some sb else strbuf_append sb ", ").bind
              (fun sb1 => (serialize_cjson_to_lua g17 j sb1).bind
                (serializeItems g17 rest false))) = _
          exact AppendsLikeI.bind_left (appendsLikeI_sep first)
            (AppendsLikeI.bind_right hj hr) sb

theorem serializeMembers_ok (g17 : Rat → String) :
    ∀ members first, SerMembersOk g17 members first
  | [], _ => Or.inl ⟨rfl, fun _ => rfl⟩
  | (k, v) :: rest, first => by
      have hv := serialize_ok g17 v
      have hr := serializeMembers_ok g17 rest false
      unfold SerOk at hv
      unfold SerMembersOk at hr
      unfold SerMembersOk luaRenderMembersSpec
      cases hrv : luaRenderSpec g17 v with
      | none =>
        rw [hrv] at hv
        intro sb
        show ((if first then some sb else strbuf_append sb ", ").bind
            (fun sb1 => (strbuf_append sb1 "[").bind
              (fun sb2 => (strbuf_append_lua_string sb2 k).bind
                (fun sb3 => (strbuf_append sb3 "] = ").bind
                  (fun sb4 => (serialize_cjson_to_lua g17 v sb4).bind
                    (serializeMembers g17 rest false)))))) = none
        exact FailsLike.bind_afterI (appendsLikeI_sep first)
          (FailsLike.bind_after (appendsLike_strbuf_append "[")
            (FailsLike.bind_after (appendsLike_lua_string k)
              (FailsLike.bind_after (appendsLike_strbuf_append "] = ")
                (FailsLike.bind_before hv _)))) sb
      | some sv =>
        rw [hrv] at hv
        cases hrr : luaRenderMembersSpec g17 rest false with
        | none =>
          rw [hrr] at hr
          intro sb
          show ((if first then some sb else strbuf_append sb ", ").bind
              (fun sb1 => (strbuf_append sb1 "[").bind
                (fun sb2 => (strbuf_append_lua_string sb2 k).bind
                  (fun sb3 => (strbuf_append sb3 "] = ").bind
                    (fun sb4 => (serialize_cjson_to_lua g17 v sb4).bind
                      (serializeMembers g17 rest false)))))) = none
          exact FailsLike.bind_afterI (appendsLikeI_sep first)
            (FailsLike.bind_after (appendsLike_strbuf_append "[")
              (FailsLike.bind_after (appendsLike_lua_string k)
                (FailsLike.bind_after (appendsLike_strbuf_append "] = ")
                  (FailsLike.bind_after hv hr)))) sb
        | some st =>
          rw [hrr] at hr
          refine Or.inr ?_
          intro sb
          show ((if first then some sb else strbuf_append sb ", ").bind
              (fun sb1 => (strbuf_append sb1 "[").bind
                (fun sb2 => (strbuf_append_lua_string sb2 k).bind
                  (fun sb3 => (strbuf_append sb3 "] = ").bind
                    (fun sb4 => (serialize_cjson_to_lua g17 v sb4).bind
                      (serializeMembers g17 rest false)))))) = _
          exact AppendsLikeI.bind_left (appendsLikeI_sep first)
            (AppendsLike.bind_ap (appendsLike_strbuf_append "[")
              (AppendsLike.bind_ap (appendsLike_lua_string k)
                (AppendsLike.bind_ap (appendsLike_strbuf_append "] = ")
                  (AppendsLikeI.bind_right hv hr)))) sb

end

/-- C7: `serialize_cjson_to_lua` renders every supported value tree by
the claimed rules — null to `nil`, boolean passthrough, integral numbers
through `%d` without a decimal point, other numbers through the external
`%.17g`, strings quoted with backslash/quote/control escapes (hex
escapes for other non-printable bytes), arrays as positional brace
sequences, objects as brace mappings with bracketed string keys — and
reports failure (rather than emitting truncated output) on buffer
exhaustion or an unsupported node kind. -/
theorem serialize_cjson_to_lua_rules (g17 : Rat → String) :
    (∀ j s sb, luaRenderSpec g17 j = some s →
        serialize_cjson_to_lua g17 j sb =
          if s.length < sb.remaining
          then some ⟨sb.out ++ s, sb.remaining - s.length⟩ else none)
    ∧ (∀ j sb, luaRenderSpec g17 j = none → serialize_cjson_to_lua g17 j sb = none)
    ∧ luaRenderSpec g17 .null = some "nil"
    ∧ (∀ b, luaRenderSpec g17 (.boolean b) = some (if b then "true" else "false"))
    ∧ (∀ (i : Int) (d : Rat), (i : Rat) = d →
        luaRenderSpec g17 (.number i d) = some (toString i))
    ∧ (∀ (i : Int) (d : Rat), (i : Rat) ≠ d →
        luaRenderSpec g17 (.number i d) = some (g17 d))
    ∧ (∀ s, luaRenderSpec g17 (.str s) =
        some ("\"" ++ (strJoin (s.data.map luaEsc) ++ "\"")))
    ∧ (∀ t, luaRenderSpec g17 (.raw t) = none)
    ∧ luaEsc '\\' = "\\\\" ∧ luaEsc '"' = "\\\"" ∧ luaEsc '\n' = "\\n"
    ∧ luaEsc '\r' = "\\r" ∧ luaEsc '\t' = "\\t"
    ∧ luaEsc (Char.ofNat 1) = "\\x01" ∧ luaEsc 'a' = "a" := by
  refine ⟨?_, ?_, rfl, fun b => rfl, ?_, ?_, fun s => rfl, fun t => rfl,
          by decide, by decide, by decide, by decide, by decide, by decide, by decide⟩
  · intro j s sb h
    have hok := serialize_ok g17 j
    unfold SerOk at hok
    rw [h] at hok
    exact hok sb
  · intro j sb h
    have hok := serialize_ok g17 j
    unfold SerOk at hok
    rw [h] at hok
    exact hok sb
  · intro i d hc
    unfold luaRenderSpec
    rw [if_pos hc]
  · intro i d hc
    unfold luaRenderSpec
    rw [if_neg hc]

/-- Concrete instantiation of `serialize_cjson_to_lua_rules`: a nested
object/array tree with a string, a null and a boolean, rendered into a
buffer with room to spare, plus a failing serialization of an
unsupported node. -/
theorem serialize_cjson_to_lua_rules_witness :
    serialize_cjson_to_lua (fun _ => "1.5")
        (Json.obj [("k", Json.arr [Json.str "x", Json.null, Json.boolean true])])
        ⟨"", 100⟩ =
      (if ("\x7b[\"k\"] = \x7b\"x\", nil, true\x7d\x7d" : String).length
            < (⟨"", 100⟩ : StrBuf).remaining
       then some ⟨(⟨"", 100⟩ : StrBuf).out ++ "\x7b[\"k\"] = \x7b\"x\", nil, true\x7d\x7d",
                  (⟨"", 100⟩ : StrBuf).remaining
                    - ("\x7b[\"k\"] = \x7b\"x\", nil, true\x7d\x7d" : String).length⟩
       else none)
    ∧ serialize_cjson_to_lua (fun _ => "1.5") (Json.raw "unsupported") ⟨"", 100⟩ = none :=
  ⟨(serialize_cjson_to_lua_rules (fun _ => "1.5")).1
      (Json.obj [("k", Json.arr [Json.str "x", Json.null, Json.boolean true])])
      "\x7b[\"k\"] = \x7b\"x\", nil, true\x7d\x7d" ⟨"", 100⟩
      (by simp [luaRenderSpec, luaRenderMembersSpec, luaRenderItemsSpec, luaStrRender,
                strJoin, luaEsc]),
   (serialize_cjson_to_lua_rules (fun _ => "1.5")).2.1 (Json.raw "unsupported") ⟨"", 100⟩
      (by simp [luaRenderSpec])⟩

/-!
## C10: the log query tool

The contract is proved at the caller's buffer size (`mcp_handle_tools_call`
always passes a 2048-byte buffer): under that bound every bounded write
fits, so the byte-exact output is `[`, a comma-separated list of
`{"t":<ts>,"msg":"<escaped text>"}` objects, and `]`.
-/

/-- The JSON object emitted for one matching log entry whose (possibly
clamp-truncated) message characters are `cs`. -/
def entryJsonOf (ts : Int) (cs : List Char) : String :=
  "\x7b\"t\":" ++ toString ts ++ ",\"msg\":\"" ++ strJoin (cs.map logEsc) ++ "\"\x7d"

/-- Separator-joined concatenation. -/
def strIntercalate (sep : String) : List String → String
  | [] => ""
  | [a] => a
  | a :: rest => a ++ sep ++ strIntercalate sep rest

/-- `s` is a syntactically complete JSON array of per-entry log
objects. -/
def CompleteLogArray (s : String) : Prop :=
  ∃ parts : List String,
    (∀ p ∈ parts, ∃ ts cs, p = entryJsonOf ts cs)
    ∧ s = "[" ++ strIntercalate "," parts ++ "]"

theorem strIntercalate_append_one (sep : String) (parts : List String) (p : String) :
    strIntercalate sep (parts ++ [p]) =
      strIntercalate sep parts ++ (if parts = [] then "" else sep) ++ p := by
  induction parts with
  | nil => simp [strIntercalate]
  | cons a rest ih =>
    cases rest with
    | nil => simp [strIntercalate]
    | cons b rest2 =>
      have ih2 : strIntercalate sep (b :: rest2 ++ [p])
          = strIntercalate sep (b :: rest2) ++ sep ++ p := by simpa using ih
      show a ++ sep ++ strIntercalate sep (b :: rest2 ++ [p]) = _
      rw [ih2]
      simp [strIntercalate, String.append_assoc]

/-- A bounded write that fits is exact. -/
theorem wb_snprintf_fits (b : WBuf) (s : String) (h : b.written + s.length ≤ 2047) :
    wb_snprintf 2048 b s = ⟨b.out ++ s, b.written + s.length⟩ := by
  have h0 : ¬(2048 - b.written = 0) := by omega
  unfold wb_snprintf
  show ({ out := b.out ++ (if 2048 - b.written = 0 then ""
                           else ctake (2048 - b.written - 1) s),
          written := b.written + s.length } : WBuf) = _
  rw [if_neg h0, ctake_of_le _ _ (by omega)]

/-- Every log escape is one or two characters. -/
theorem logEsc_length (c : Char) : (logEsc c).length ≤ 2 := by
  unfold logEsc
  split_ifs <;> first
    | decide
    | exact le_of_eq rfl
    | simp

/-- The escape loop writes the escapes of some prefix of the characters,
and its `written` counter never exceeds `max b.written 2029` (each write
happens only below the `max_len - 20` clamp and adds at most two
characters). -/
theorem wb_escape_spec (cs : List Char) (b : WBuf) :
    ∃ k, wb_escape 2048 cs b =
        ⟨b.out ++ strJoin ((cs.take k).map logEsc),
         b.written + (strJoin ((cs.take k).map logEsc)).length⟩
      ∧ (wb_escape 2048 cs b).written ≤ max b.written 2029 := by
  induction cs generalizing b with
  | nil =>
    refine ⟨0, ?_, ?_⟩
    · cases b
      simp [wb_escape, strJoin]
    · simp [wb_escape]
  | cons c rest ih =>
    unfold wb_escape
    by_cases h : b.written < 2048 - 20
    · rw [if_pos h]
      obtain ⟨k, heq, hb⟩ := ih ⟨b.out ++ logEsc c, b.written + (logEsc c).length⟩
      refine ⟨k + 1, ?_, ?_⟩
      · rw [heq]
        simp only [List.take_succ_cons, List.map_cons, strJoin]
        rw [String.append_assoc]
        congr 1
        rw [String.length_append]
        omega
      · rw [heq] at hb ⊢
        simp only at hb ⊢
        have hl := logEsc_length c
        omega
    · rw [if_neg h]
      refine ⟨0, ?_, ?_⟩
      · cases b
        simp [strJoin]
      · exact le_max_left _ _

/-- `logs_emit_entry` as the plain composition of its four writes. -/
theorem logs_emit_entry_eq (e : LogEntry) (first : Bool) (b : WBuf) :
    logs_emit_entry 2048 e first b =
      wb_snprintf 2048
        (wb_escape 2048 e.text.data
          (wb_snprintf 2048 (if first then b else wb_snprintf 2048 b ",")
            ("\x7b\"t\":" ++ toString e.timestamp_ms ++ ",\"msg\":\"")))
        "\"\x7d" := rfl

/-- Emitting one entry appends the separator (unless first) plus one
well-formed entry object whose message characters are a prefix of the
entry's text, and leaves the `written` counter at most 2031. -/
theorem logs_emit_entry_spec (e : LogEntry) (first : Bool) (b : WBuf)
    (hts : (toString e.timestamp_ms).length ≤ 20) (hlt : b.written ≤ 1947) :
    ∃ cs : List Char,
      logs_emit_entry 2048 e first b =
        ⟨b.out ++ ((if first then "" else ",") ++ entryJsonOf e.timestamp_ms cs),
         b.written + ((if first then "" else ",") ++ entryJsonOf e.timestamp_ms cs).length⟩
      ∧ (logs_emit_entry 2048 e first b).written ≤ 2031 := by
  have hpreEq : ("\x7b\"t\":" ++ toString e.timestamp_ms ++ ",\"msg\":\"").length
      = 5 + (toString e.timestamp_ms).length + 8 := by
    rw [String.length_append, String.length_append]
    rw [show ("\x7b\"t\":" : String).length = 5 from rfl,
        show (",\"msg\":\"" : String).length = 8 from rfl]
  rw [logs_emit_entry_eq]
  have hb1 : (if first then b else wb_snprintf 2048 b ",") =
      ⟨b.out ++ (if first then "" else ","),
       b.written + (if first then "" else ",").length⟩ := by
    cases first with
    | true =>
      cases b
      simp
    | false =>
      rw [wb_snprintf_fits b "," (by rw [show ("," : String).length = 1 from rfl]; omega)]
      simp
  rw [hb1]
  have hsep : (if first then "" else "," : String).length ≤ 1 := by
    cases first <;> decide
  have h2 := wb_snprintf_fits
      ⟨b.out ++ (if first then "" else ","),
       b.written + (if first then "" else ",").length⟩
      ("\x7b\"t\":" ++ toString e.timestamp_ms ++ ",\"msg\":\"")
      (by simp only [hpreEq]; omega)
  rw [h2]
  obtain ⟨k, hesc, hbound⟩ := wb_escape_spec e.text.data
      ⟨(b.out ++ (if first then "" else ",")) ++
        ("\x7b\"t\":" ++ toString e.timestamp_ms ++ ",\"msg\":\""),
       (b.written + (if first then "" else ",").length) +
        ("\x7b\"t\":" ++ toString e.timestamp_ms ++ ",\"msg\":\"").length⟩
  rw [hesc]
  rw [hesc] at hbound
  simp only at hbound
  have hmax : max ((b.written + (if first then "" else ",").length) +
      ("\x7b\"t\":" ++ toString e.timestamp_ms ++ ",\"msg\":\"").length) 2029 = 2029 := by
    apply max_eq_right
    rw [hpreEq]
    omega
  rw [hmax] at hbound
  have h4 := wb_snprintf_fits
      ⟨((b.out ++ (if first then "" else ",")) ++
          ("\x7b\"t\":" ++ toString e.timestamp_ms ++ ",\"msg\":\"")) ++
        strJoin ((e.text.data.take k).map logEsc),
       ((b.written + (if first then "" else ",").length) +
          ("\x7b\"t\":" ++ toString e.timestamp_ms ++ ",\"msg\":\"").length) +
        (strJoin ((e.text.data.take k).map logEsc)).length⟩
      "\"\x7d"
      (by dsimp only
          rw [show ("\"\x7d" : String).length = 2 from rfl]
          omega)
  rw [h4]
  refine ⟨e.text.data.take k, ?_, ?_⟩
  · simp only [WBuf.mk.injEq]
    constructor
    · simp [entryJsonOf, String.append_assoc]
    · simp only [String.length_append, entryJsonOf, hpreEq,
                 show ("\"\x7d" : String).length = 2 from rfl,
                 show ("\x7b\"t\":" : String).length = 5 from rfl,
                 show (",\"msg\":\"" : String).length = 8 from rfl]
      omega
  · dsimp only
    rw [show ("\"\x7d" : String).length = 2 from rfl]
    omega

/-- If nothing passes the severity/filter test, the loop writes
nothing. -/
theorem logs_loop_nomatch (minLevel : Nat) (filter : Option String) :
    ∀ (entries : List LogEntry) (skip : Nat) (first : Bool) (b : WBuf),
    (∀ e ∈ entries, logPass minLevel filter e = false) →
    logs_loop 2048 minLevel filter entries skip first b = b
  | [], _, _, _ => by
    intro _
    rfl
  | e :: rest, skip, first, b => by
    intro h
    have he := h e (List.mem_cons_self e rest)
    have hr : ∀ x ∈ rest, logPass minLevel filter x = false :=
      fun x hx => h x (List.mem_cons_of_mem _ hx)
    simp only [logs_loop, he]
    simp only [Bool.false_eq_true, not_false_eq_true, if_true]
    exact logs_loop_nomatch minLevel filter rest skip first b hr

/-- The output loop turns a well-formed partial array into a well-formed
partial array: every emission appends one entry object (comma-separated),
`written` tracks the output length exactly, and stays at most 2031. -/
theorem logs_loop_spec (minLevel : Nat) (filter : Option String) :
    ∀ (entries : List LogEntry) (skip : Nat) (first : Bool)
      (parts : List String) (b : WBuf),
    (∀ e ∈ entries, (toString e.timestamp_ms).length ≤ 20) →
    b.written = b.out.length →
    b.out = "[" ++ strIntercalate "," parts →
    (∀ p ∈ parts, ∃ ts cs, p = entryJsonOf ts cs) →
    (first = true ↔ parts = []) →
    b.written ≤ 1947 →
    ∃ parts2 : List String,
      (∀ p ∈ parts2, ∃ ts cs, p = entryJsonOf ts cs)
      ∧ (logs_loop 2048 minLevel filter entries skip first b).out
          = "[" ++ strIntercalate "," parts2
      ∧ (logs_loop 2048 minLevel filter entries skip first b).written
          = (logs_loop 2048 minLevel filter entries skip first b).out.length
      ∧ (logs_loop 2048 minLevel filter entries skip first b).written ≤ 2031
  | [], skip, first, parts, b => by
    intro _ hw hout hshape _ hlt
    refine ⟨parts, hshape, hout, hw, ?_⟩
    have hnil : logs_loop 2048 minLevel filter [] skip first b = b := rfl
    rw [hnil]
    omega
  | e :: rest, skip, first, parts, b => by
    intro hts hw hout hshape hfirst hlt
    have htse := hts e (List.mem_cons_self e rest)
    have htsr : ∀ x ∈ rest, (toString x.timestamp_ms).length ≤ 20 :=
      fun x hx => hts x (List.mem_cons_of_mem _ hx)
    by_cases hp : logPass minLevel filter e = true
    · by_cases hskip : skip > 0
      · simp only [logs_loop, hp, not_true_eq_false, if_false, if_pos hskip]
        exact logs_loop_spec minLevel filter rest (skip - 1) first parts b
          htsr hw hout hshape hfirst hlt
      · obtain ⟨cs, hemiteq, hemitb⟩ := logs_emit_entry_spec e first b htse hlt
        have hsepmatch : (if first then "" else "," : String)
            = (if parts = [] then "" else ",") := by
          cases hb : first with
          | true =>
            subst hb
            simp [hfirst.mp rfl]
          | false =>
            subst hb
            have hne : parts ≠ [] := fun hpe => Bool.noConfusion (hfirst.mpr hpe)
            simp [hne]
        have hout1 : (logs_emit_entry 2048 e first b).out
            = "[" ++ strIntercalate "," (parts ++ [entryJsonOf e.timestamp_ms cs]) := by
          rw [hemiteq]
          dsimp only
          rw [hout, strIntercalate_append_one, hsepmatch]
          simp [String.append_assoc]
        have hw1 : (logs_emit_entry 2048 e first b).written
            = (logs_emit_entry 2048 e first b).out.length := by
          rw [hemiteq]
          dsimp only
          simp [String.length_append, hw]
        have hshape1 : ∀ p ∈ parts ++ [entryJsonOf e.timestamp_ms cs],
            ∃ ts cs2, p = entryJsonOf ts cs2 := by
          intro p hpmem
          rcases List.mem_append.mp hpmem with hmem | hmem
          · exact hshape p hmem
          · exact ⟨e.timestamp_ms, cs, by simpa using hmem⟩
        by_cases hbig : (logs_emit_entry 2048 e first b).written ≥ 2048 - 100
        · simp only [logs_loop, hp, not_true_eq_false, if_false, if_neg hskip,
                     if_pos hbig]
          exact ⟨parts ++ [entryJsonOf e.timestamp_ms cs], hshape1, hout1, hw1, hemitb⟩
        · simp only [logs_loop, hp, not_true_eq_false, if_false, if_neg hskip,
                     if_neg hbig]
          exact logs_loop_spec minLevel filter rest skip false
            (parts ++ [entryJsonOf e.timestamp_ms cs])
            (logs_emit_entry 2048 e first b)
            htsr hw1 hout1 hshape1
            (by simp)
            (by omega)
    · simp only [logs_loop, hp]
      simp only [Bool.false_eq_true, not_false_eq_true, if_true]
      exact logs_loop_spec minLevel filter rest skip first parts b
        htsr hw hout hshape hfirst hlt

/-- Every element delivered by the ring walk is a stored entry or the
zero-filled default slot. -/
theorem logsSeq_tsLen (ring : List LogEntry) (head count : Nat)
    (hts : ∀ e ∈ ring, (toString e.timestamp_ms).length ≤ 20) :
    ∀ e ∈ logsSeq ring head count, (toString e.timestamp_ms).length ≤ 20 := by
  intro e he
  unfold logsSeq at he
  obtain ⟨i, _, hei⟩ := List.mem_map.mp he
  rw [List.getD_eq_getElem?_getD] at hei
  rcases hget : ring[((if count < 64 then 0 else head) + i) % 64]? with _ | y
  · rw [hget] at hei
    simp only [Option.getD_none] at hei
    rw [← hei]
    decide
  · rw [hget] at hei
    simp only [Option.getD_some] at hei
    rw [← hei]
    exact hts y (List.getElem?_mem hget)

/-- The skip count: with more matches than the clamped line budget, the
oldest surplus matches are skipped. -/
def logsSkip (args : Option Json) (ring : List LogEntry) (head count : Nat) : Nat :=
  let matchCount := ((logsSeq ring head count).filter
      (logPass (logsMinLevel args) (logsFilter args))).length
  if (matchCount : Int) > logsMaxLines args
  then ((matchCount : Int) - logsMaxLines args).toNat else 0

/-- `tool_sys_get_logs`, log system initialised and mutex acquired, at
the caller's 2048-byte buffer: open bracket, guarded ring walk, close
bracket. -/
theorem tool_sys_get_logs_eq_true (ring : List LogEntry) (head count : Nat)
    (args : Option Json) :
    tool_sys_get_logs ring head count args true true 2048 =
      (.ok,
       (wb_snprintf 2048
         (logs_loop 2048 (logsMinLevel args) (logsFilter args)
           (logsSeq ring head count) (logsSkip args ring head count)
           true ⟨"[", 1⟩)
         "]").out) := rfl

/-- `tool_sys_get_logs` when the 100 ms mutex acquisition times out:
the brackets close over an empty body. -/
theorem tool_sys_get_logs_eq_false (ring : List LogEntry) (head count : Nat)
    (args : Option Json) :
    tool_sys_get_logs ring head count args true false 2048 = (.ok, "[]") := rfl

/-- The clamp of the requested line count. -/
theorem logsMaxLines_clamped (args : Option Json) :
    1 ≤ logsMaxLines args ∧ logsMaxLines args ≤ 64 := by
  cases args with
  | none => exact ⟨by decide, by decide⟩
  | some a =>
    have he : logsMaxLines (some a) =
        (match getItem a "lines" with
         | some (.number n _) => if n < 1 then 1 else if n > 64 then 64 else n
         | _ => 20) := rfl
    rw [he]
    rcases hli : getItem a "lines" with _ | j
    · exact ⟨by decide, by decide⟩
    · cases j with
      | number n d =>
        refine ⟨?_, ?_⟩
        · show 1 ≤ (if n < 1 then 1 else if n > 64 then 64 else n)
          split_ifs <;> omega
        · show (if n < 1 then 1 else if n > 64 then 64 else n) ≤ 64
          split_ifs <;> omega
      | null => exact ⟨show (1 : Int) ≤ 20 by norm_num, show (20 : Int) ≤ 64 by norm_num⟩
      | boolean b2 => exact ⟨show (1 : Int) ≤ 20 by norm_num, show (20 : Int) ≤ 64 by norm_num⟩
      | str s2 => exact ⟨show (1 : Int) ≤ 20 by norm_num, show (20 : Int) ≤ 64 by norm_num⟩
      | arr l2 => exact ⟨show (1 : Int) ≤ 20 by norm_num, show (20 : Int) ≤ 64 by norm_num⟩
      | obj l2 => exact ⟨show (1 : Int) ≤ 20 by norm_num, show (20 : Int) ≤ 64 by norm_num⟩
      | raw t2 => exact ⟨show (1 : Int) ≤ 20 by norm_num, show (20 : Int) ≤ 64 by norm_num⟩

/-- C10: the requested line count is always clamped into
[1, LOG_MAX_LINES]; an absent or unrecognised level string leaves the
"info" minimum severity (3); the tool always succeeds with a
syntactically complete JSON array in the output buffer; and the output
is exactly "[]" when the mutex acquisition times out or no entry
matches. -/
theorem tool_sys_get_logs_contract (ring : List LogEntry) (head count : Nat)
    (args : Option Json) (mutexOk : Bool)
    (hts : ∀ e ∈ ring, (toString e.timestamp_ms).length ≤ 20) :
    (1 ≤ logsMaxLines args ∧ logsMaxLines args ≤ 64)
    ∧ logsMinLevel none = 3
    ∧ (∀ a, getItem a "level" = none → logsMinLevel (some a) = 3)
    ∧ (∀ a s, getItem a "level" = some (.str s) →
        s ≠ "error" → s ≠ "warn" → s ≠ "info" → s ≠ "debug" → s ≠ "verbose" →
        logsMinLevel (some a) = 3)
    ∧ (tool_sys_get_logs ring head count args true mutexOk 2048).1 = .ok
    ∧ CompleteLogArray (tool_sys_get_logs ring head count args true mutexOk 2048).2
    ∧ (mutexOk = false →
        (tool_sys_get_logs ring head count args true mutexOk 2048).2 = "[]")
    ∧ ((∀ e ∈ logsSeq ring head count,
          logPass (logsMinLevel args) (logsFilter args) e = false) →
        (tool_sys_get_logs ring head count args true mutexOk 2048).2 = "[]") := by
  have hseqts := logsSeq_tsLen ring head count hts
  refine ⟨logsMaxLines_clamped args, rfl, ?_, ?_, ?_, ?_, ?_, ?_⟩
  · intro a hl
    simp [logsMinLevel, hl]
  · intro a s hl h1 h2 h3 h4 h5
    simp [logsMinLevel, hl, parse_level_string, h1, h2, h3, h4, h5]
  · cases mutexOk with
    | true => rw [tool_sys_get_logs_eq_true]
    | false => rw [tool_sys_get_logs_eq_false]
  · cases mutexOk with
    | false =>
      rw [tool_sys_get_logs_eq_false]
      exact ⟨[], by simp, rfl⟩
    | true =>
      rw [tool_sys_get_logs_eq_true]
      obtain ⟨parts2, hsh2, hout2, hw2, hbound2⟩ :=
        logs_loop_spec (logsMinLevel args) (logsFilter args)
          (logsSeq ring head count) (logsSkip args ring head count) true [] ⟨"[", 1⟩
          hseqts rfl rfl (by simp) (by simp) (by decide)
      refine ⟨parts2, hsh2, ?_⟩
      rw [wb_snprintf_fits _ "]"
        (by rw [show ("]" : String).length = 1 from rfl, hw2]; omega)]
      dsimp only
      rw [hout2]
  · intro hm
    subst hm
    rw [tool_sys_get_logs_eq_false]
  · intro hnone
    cases mutexOk with
    | false => rw [tool_sys_get_logs_eq_false]
    | true =>
      rw [tool_sys_get_logs_eq_true,
          logs_loop_nomatch _ _ _ _ _ _ hnone]
      rfl

/-- Concrete instantiation of `tool_sys_get_logs_contract`: an
over-limit line request is clamped, the output is a complete JSON
array, and a mutex timeout yields exactly "[]". -/
theorem tool_sys_get_logs_contract_witness :
    (1 ≤ logsMaxLines (some (Json.obj [("lines", Json.number 500 500)]))
       ∧ logsMaxLines (some (Json.obj [("lines", Json.number 500 500)])) ≤ 64)
    ∧ CompleteLogArray (tool_sys_get_logs [] 0 0 none true true 2048).2
    ∧ (tool_sys_get_logs [] 0 0 none true false 2048).2 = "[]" :=
  ⟨(tool_sys_get_logs_contract [] 0 0
      (some (Json.obj [("lines", Json.number 500 500)])) true (by simp)).1,
   (tool_sys_get_logs_contract [] 0 0 none true (by simp)).2.2.2.2.2.1,
   (tool_sys_get_logs_contract [] 0 0 none false (by simp)).2.2.2.2.2.2.1 rfl⟩
